import Mathlib

/-!
Verification development for the Network_Security OSPF topology core:
the LSA text parser (`parseOSPFData`), the graph builder and auto-fit
transform (`buildGraph`, `computeAutoFit`), and the topology differ /
status annotator (`diffTopologies`, `applyNodeStatuses`,
`applyEdgeStatuses`).

The TypeScript source is embedded shallowly:
* JS `Map` (insertion-ordered, last-set value wins, `set` keeps the
  original position of an existing key) is modelled by an association
  list `List (String × a)` with `jsMapSet` / `jsMapGet`.
* JS `Set` is modelled by an insertion-ordered duplicate-free list.
* The case-insensitive regular expressions used by the parser are
  modelled by explicit matching functions on `List Char`, one per
  regex, with leftmost-match and lazy-group semantics spelled out.
* JS numbers: every number the modelled code produces or compares is a
  non-negative integer (parsed metrics, counters, timestamps), modelled
  as `Nat`; the auto-fit arithmetic (division, min/max) is exact on the
  inputs we consider and is modelled over `ℚ`.
-/

namespace NetSec

/-! ## Data model (src/lib/ospf-types.ts as used by the core) -/

inductive RouterRole where
  | internal
  | abr
  | asbr
deriving DecidableEq, Repr

/-- Numeric rank of a role on the upgrade lattice internal < abr < asbr
(the parser upgrades internal to abr, and anything to asbr, never the
other way). -/
def RouterRole.rank : RouterRole → Nat
  | .internal => 0
  | .abr => 1
  | .asbr => 2

inductive LinkKind where
  | p2p
  | transit
  | stub
deriving DecidableEq, Repr

/-- The string form of a link kind as it appears in the source
("point-to-point" | "transit" | "stub"); used by `dedup` keys. -/
def LinkKind.str : LinkKind → String
  | .p2p => "point-to-point"
  | .transit => "transit"
  | .stub => "stub"

structure OSPFRouter where
  id : String
  routerId : String
  role : RouterRole
  area : String
  lsaTypes : List String
  neighbors : List String
  networks : List String
  sequenceNumber : Option String
  age : Option Nat
  checksum : Option String
deriving DecidableEq, Repr

structure OSPFNetwork where
  id : String
  networkAddress : String
  mask : String
  attachedRouters : List String
  designatedRouter : String
  area : String
deriving DecidableEq, Repr

structure OSPFLink where
  id : String
  source : String
  target : String
  cost : Nat
  linkType : LinkKind
  interfaceInfo : Option String
  area : String
deriving DecidableEq, Repr

structure OSPFTopology where
  routers : List OSPFRouter
  networks : List OSPFNetwork
  links : List OSPFLink
  areas : List String
deriving DecidableEq, Repr

/-! ## JS `Map` and `Set` models -/

/-- JS `Map.prototype.set`: if the key is present, replace its value in
place (keeping its position); otherwise append the pair at the end. -/
def jsMapSet {α : Type} : List (String × α) → String → α → List (String × α)
  | [], k, v => [(k, v)]
  | (k1, v1) :: rest, k, v =>
    if k1 = k then (k, v) :: rest else (k1, v1) :: jsMapSet rest k v

/-- JS `Map.prototype.get`. -/
def jsMapGet {α : Type} (m : List (String × α)) (k : String) : Option α :=
  (m.find? (fun p => p.1 = k)).map (·.2)

/-- JS `Map.prototype.has`. -/
def jsMapHas {α : Type} (m : List (String × α)) (k : String) : Bool :=
  (jsMapGet m k).isSome

/-- Build a JS `Map` from a list of key/value pairs by repeated `set`
(this is what `new Map(pairs)` does: later pairs win on value). -/
def mkJsMap {α : Type} (l : List (String × α)) : List (String × α) :=
  l.foldl (fun m p => jsMapSet m p.1 p.2) []

/-- JS `Set.prototype.add` on an insertion-ordered list model. -/
def jsSetAdd (s : List String) (x : String) : List String :=
  if s.contains x then s else s ++ [x]

/-! ## Regex-lite string matching

Each JS regular expression used by the parser and differ is modelled by
an explicit function.  Conventions: patterns work on `List Char`;
literal parts of a case-insensitive regex are matched by `matchLit`
with the literal given in lowercase; an unanchored regex is a leftmost
search over all start positions (`searchO`). -/

/-- JS `\s` (on the characters that can occur in a CLI dump line):
space, tab, carriage return, newline, form feed, vertical tab. -/
def isWs (c : Char) : Bool :=
  c = ' ' || c = '\t' || c = '\r' || c = '\n' || c = '\x0c' || c = '\x0b'

/-- Case-insensitive literal match.  `pat` is the literal in lowercase;
on success returns the rest of the subject after the literal. -/
def matchLit : List Char → List Char → Option (List Char)
  | [], s => some s
  | _ :: _, [] => none
  | p :: ps, c :: cs => if c.toLower = p then matchLit ps cs else none

/-- `\s*`. -/
def dropWs (s : List Char) : List Char := s.dropWhile isWs

/-- `\s+`: at least one whitespace character, then greedily the rest. -/
def ws1 : List Char → Option (List Char)
  | [] => none
  | c :: cs => if isWs c then some (cs.dropWhile isWs) else none

/-- A character class applied greedily, one-or-more (`[..]+`): returns
the matched characters and the rest. -/
def takeCls (p : Char → Bool) : List Char → Option (List Char × List Char)
  | [] => none
  | c :: cs =>
    if p c then some (c :: cs.takeWhile p, cs.dropWhile p) else none

/-- Leftmost search: try the matcher at every start position of the
subject, earliest first (the JS regex engine's unanchored search). -/
def searchO {α : Type} (f : List Char → Option α) : List Char → Option α
  | [] => f []
  | c :: cs =>
    match f (c :: cs) with
    | some r => some r
    | none => searchO f cs

/-- Case-insensitive substring test (`/lit/i.test(s)`). -/
def containsCI (pat : List Char) (s : List Char) : Bool :=
  (searchO (matchLit pat) s).isSome

/-- Value of a non-empty decimal digit string (what `parseInt` returns
on the `\d+` capture groups of this parser). -/
def digitsToNat (ds : List Char) : Nat :=
  ds.foldl (fun a c => 10 * a + (c.toNat - 48)) 0

/-- `[\d.]` - the character class for dotted ids/addresses. -/
def isDigitDot (c : Char) : Bool := c.isDigit || c = '.'

/-- `\S` . -/
def isNonWs (c : Char) : Bool := !isWs c

/-- JS `String.prototype.trim`: strip whitespace from both ends. -/
def trimChars (l : List Char) : List Char :=
  ((l.dropWhile isWs).reverse.dropWhile isWs).reverse

/-! ## The parser's regular expressions (src/unnamed/part_007) -/

/-- `^LS age:\s*(\d+)` applied at the current position: the age value. -/
def lsAgeAt (s : List Char) : Option Nat :=
  (matchLit "ls age:".data s).bind fun r =>
    (takeCls Char.isDigit (dropWs r)).map fun p => digitsToNat p.1

/-- `/^\s*LS age:\s*\d+/i.test(line)` - the LSA block boundary. -/
def isLSAgeBoundary (line : String) : Bool :=
  (lsAgeAt (dropWs line.data)).isSome

/-- `Link States\s+\(Area\s+(\d+)\)` at the current position; returns
the captured area digits as a string (the source keeps `m[1]`). -/
def linkStatesAreaAt (s : List Char) : Option String :=
  (matchLit "link states".data s).bind fun r1 =>
  (ws1 r1).bind fun r2 =>
  (matchLit "(area".data r2).bind fun r3 =>
  (ws1 r3).bind fun r4 =>
  (takeCls Char.isDigit r4).bind fun p =>
  (matchLit ")".data p.2).map fun _ => String.mk p.1

/-- `line.match(/Link States\s+\(Area\s+(\d+)\)/i)` : leftmost match,
captured area string (used by `updateArea`). -/
def areaOfLine (line : String) : Option String :=
  searchO linkStatesAreaAt line.data

/-- `/(?:Router|Net|Summary.*)\s+Link States\s+\(Area\s+\d+\)/i.test(line)`:
the area-header test in `splitIntoBlocks`.  At a given start position
the alternation tries the literal `Router` or `Net` followed directly
by the tail, or `Summary` followed (via the backtracking `.*`) by the
tail anywhere later in the line. -/
def areaHeaderAt (s : List Char) : Option String :=
  match (matchLit "router".data s).bind (fun r => (ws1 r).bind linkStatesAreaAt) with
  | some a => some a
  | none =>
  match (matchLit "net".data s).bind (fun r => (ws1 r).bind linkStatesAreaAt) with
  | some a => some a
  | none =>
    (matchLit "summary".data s).bind fun r =>
      searchO (fun t => (ws1 t).bind linkStatesAreaAt) r

def isAreaHeaderLine (line : String) : Bool :=
  (searchO areaHeaderAt line.data).isSome

/-- `/LS Type:\s*Router Links/i.test(l)`. -/
def isRouterLinksLine (l : String) : Bool :=
  (searchO
    (fun s => (matchLit "ls type:".data s).bind fun r =>
      matchLit "router links".data (dropWs r)) l.data).isSome

/-- `/LS Type:\s*Network Links/i.test(l)`. -/
def isNetworkLinksLine (l : String) : Bool :=
  (searchO
    (fun s => (matchLit "ls type:".data s).bind fun r =>
      matchLit "network links".data (dropWs r)) l.data).isSome

/-- `^Link State ID:\s*([\d.]+)` on a trimmed line. -/
def linkStateIdOf (t : List Char) : Option String :=
  (matchLit "link state id:".data t).bind fun r =>
    (takeCls isDigitDot (dropWs r)).map fun p => String.mk p.1

/-- `^LS Seq Number:\s*(\S+)` on a trimmed line. -/
def seqNumberOf (t : List Char) : Option String :=
  (matchLit "ls seq number:".data t).bind fun r =>
    (takeCls isNonWs (dropWs r)).map fun p => String.mk p.1

/-- `^Checksum:\s*(\S+)` on a trimmed line. -/
def checksumOf (t : List Char) : Option String :=
  (matchLit "checksum:".data t).bind fun r =>
    (takeCls isNonWs (dropWs r)).map fun p => String.mk p.1

/-- `^Advertising Router:\s*([\d.]+)` on a trimmed line. -/
def advRouterOf (t : List Char) : Option String :=
  (matchLit "advertising router:".data t).bind fun r =>
    (takeCls isDigitDot (dropWs r)).map fun p => String.mk p.1

/-- `^Network Mask:\s*(\S+)` on a trimmed line. -/
def netMaskOf (t : List Char) : Option String :=
  (matchLit "network mask:".data t).bind fun r =>
    (takeCls isNonWs (dropWs r)).map fun p => String.mk p.1

/-- `Attached Router:\s*([\d.]+)` - unanchored. -/
def attachedRouterOf (t : List Char) : Option String :=
  searchO
    (fun s => (matchLit "attached router:".data s).bind fun r =>
      (takeCls isDigitDot (dropWs r)).map fun p => String.mk p.1) t

/-- `/Link connected to:/i.test(l)`. -/
def isLinkConnLine (l : String) : Bool :=
  containsCI "link connected to:".data l.data

/-- `headerLine.match(/Link connected to:\s*(.+)/i)` on a *trimmed*
header line: the capture is the rest of the line after the literal and
any whitespace.  (Because the subject is trimmed, the rest cannot be
all-whitespace unless it is empty, in which case `(.+)` fails and,
every later start position failing too, the whole match fails.) -/
def connDescOf (t : List Char) : Option (List Char) :=
  searchO
    (fun s => (matchLit "link connected to:".data s).bind fun r =>
      let r2 := dropWs r
      if r2.isEmpty then none else some r2) t

/-- The lazy tail `.*?:\s*([cls]+)` of the Link ID / Link Data regexes:
scan for a `:` left to right (the lazy `.*?` grows one character at a
time), and after each candidate colon require `\s*` then one-or-more
class characters; on failure backtrack to the next colon. -/
def colonCls (cls : Char → Bool) : List Char → Option String
  | [] => none
  | c :: cs =>
    if c = ':' then
      match takeCls cls (dropWs cs) with
      | some p => some (String.mk p.1)
      | none => colonCls cls cs
    else colonCls cls cs

/-- `\(Link ID\).*?:\s*([\d.]+)` - leftmost occurrence with successful
continuation. -/
def linkIdOf (t : List Char) : Option String :=
  searchO
    (fun s => (matchLit "(link id)".data s).bind (colonCls isDigitDot)) t

/-- `\(Link Data\).*?:\s*([\d.]+)`. -/
def linkDataOf (t : List Char) : Option String :=
  searchO
    (fun s => (matchLit "(link data)".data s).bind (colonCls isDigitDot)) t

/-- `TOS 0 Metrics?:\s*(\d+)`: the literal `TOS 0 Metric`, an optional
`s`, a colon, whitespace, digits.  Unanchored search. -/
def metricOf (t : List Char) : Option Nat :=
  searchO
    (fun s => (matchLit "tos 0 metric".data s).bind fun r =>
      match r with
      | [] => none
      | c :: rest =>
        if c.toLower = 's' then
          match rest with
          | ':' :: r2 => (takeCls Char.isDigit (dropWs r2)).map fun p => digitsToNat p.1
          | _ => none
        else if c = ':' then
          (takeCls Char.isDigit (dropWs rest)).map fun p => digitsToNat p.1
        else none) t

/-- `/Area Border Router/i.test(trimmed)`. -/
def isABRLine (t : List Char) : Bool := containsCI "area border router".data t

/-- `/AS Boundary Router/i.test(trimmed)`. -/
def isASBRLine (t : List Char) : Bool := containsCI "as boundary router".data t

/-! ## Block splitting (src/unnamed/part_007, `splitIntoBlocks`) -/

/-- Loop body of `splitIntoBlocks`: `current` is the block being
accumulated.  An area-header line flushes the current block and becomes
a pseudo-block of its own; a boundary line flushes the current block
and starts a new one; any other line is appended to the current block;
at the end of input a non-empty current block is flushed. -/
def splitBlocksGo (isBoundary : String → Bool) :
    List String → List String → List (List String)
  | [], current => if current.isEmpty then [] else [current]
  | line :: rest, current =>
    if isAreaHeaderLine line then
      (if current.isEmpty then [] else [current]) ++ [line] ::
        splitBlocksGo isBoundary rest []
    else if isBoundary line then
      (if current.isEmpty then [] else [current]) ++
        splitBlocksGo isBoundary rest [line]
    else
      splitBlocksGo isBoundary rest (current ++ [line])

def splitIntoBlocks (lines : List String) (isBoundary : String → Bool) :
    List (List String) :=
  splitBlocksGo isBoundary lines []

/-- `updateArea`: scan the block for area-header lines in order; each
match overwrites the running current area. -/
def updateArea (block : List String) (cur : String) : String :=
  block.foldl (fun a line => (areaOfLine line).getD a) cur

/-! ## Raw LSA records and the two LSA-block parsers -/

structure RawLink where
  type : LinkKind
  linkId : String
  linkData : String
  metric : Nat
deriving DecidableEq, Repr

structure RawRouterLSA where
  routerId : String
  area : String
  age : Nat
  seqNumber : String
  checksum : String
  isABR : Bool
  isASBR : Bool
  links : List RawLink
deriving DecidableEq, Repr

structure RawNetworkLSA where
  linkStateId : String
  advertisingRouter : String
  area : String
  age : Nat
  seqNumber : String
  checksum : String
  networkMask : String
  attachedRouters : List String
deriving DecidableEq, Repr

/-- Field state of the per-line scan inside a Router LSA block. -/
structure RtrFields where
  age : Nat := 0
  routerId : String := ""
  seqNumber : String := ""
  checksum : String := ""
  isABR : Bool := false
  isASBR : Bool := false
deriving DecidableEq, Repr

/-- One line of the Router LSA field scan (source lines 191-207): the
patterns are tried in order and the first matching one updates its
field (each match `continue`s). -/
def rtrFieldStep (f : RtrFields) (line : String) : RtrFields :=
  let t := trimChars line.data
  match lsAgeAt t with
  | some a => { f with age := a }
  | none =>
  match linkStateIdOf t with
  | some rid => { f with routerId := rid }
  | none =>
  match seqNumberOf t with
  | some sq => { f with seqNumber := sq }
  | none =>
  match checksumOf t with
  | some cs => { f with checksum := cs }
  | none =>
  if isABRLine t then { f with isABR := true }
  else if isASBRLine t then { f with isASBR := true }
  else f

/-- One line of the per-link field scan (source lines 227-235): all
three patterns are applied to every line (no `continue`), each match
overwriting its field. -/
def linkFieldStep (f : String × String × Nat) (line : String) :
    String × String × Nat :=
  let t := trimChars line.data
  let lid := (linkIdOf t).getD f.1
  let ld := (linkDataOf t).getD f.2.1
  let met := (metricOf t).getD f.2.2
  (lid, ld, met)

/-- Parse one `Link connected to:` sub-block into a raw link (source
lines 211-240): classify the kind from the connection description, scan
the lines for Link ID / Link Data / metric, and drop the record when no
Link ID was found. -/
def parseLinkBlock (lb : List String) : Option RawLink :=
  match lb with
  | [] => none
  | headerLine :: _ =>
    match connDescOf (trimChars headerLine.data) with
    | none => none
    | some desc =>
      let linkType : LinkKind :=
        if containsCI "point-to-point".data desc then .p2p
        else if containsCI "transit".data desc then .transit
        else .stub
      let f := lb.foldl linkFieldStep ("", "", 0)
      if f.1 = "" then none
      else some { type := linkType, linkId := f.1, linkData := f.2.1, metric := f.2.2 }

/-- Process one block of `parseRouterLSAs` (after the running area has
been updated): skip it unless it contains a `LS Type: Router Links`
line; scan the fields; parse the link sub-blocks; drop the whole block
when no router id was recovered. -/
def parseRouterBlock (block : List String) (area : String) : Option RawRouterLSA :=
  if !block.any isRouterLinksLine then none
  else
    let f := block.foldl rtrFieldStep {}
    let lsaLinks := (splitIntoBlocks block isLinkConnLine).filterMap parseLinkBlock
    if f.routerId = "" then none
    else some { routerId := f.routerId, area := area, age := f.age,
                seqNumber := f.seqNumber, checksum := f.checksum,
                isABR := f.isABR, isASBR := f.isASBR, links := lsaLinks }

/-- The block loop of `parseRouterLSAs`, threading the running current
area (default "0") from block to block. -/
def parseRouterLSAsGo : List (List String) → String → List RawRouterLSA
  | [], _ => []
  | b :: bs, area =>
    let area2 := updateArea b area
    match parseRouterBlock b area2 with
    | some lsa => lsa :: parseRouterLSAsGo bs area2
    | none => parseRouterLSAsGo bs area2

def parseRouterLSAs (lines : List String) : List RawRouterLSA :=
  parseRouterLSAsGo (splitIntoBlocks lines isLSAgeBoundary) "0"

/-- Field state of the per-line scan inside a Network LSA block. -/
structure NetFields where
  linkStateId : String := ""
  advertisingRouter : String := ""
  age : Nat := 0
  seqNumber : String := ""
  checksum : String := ""
  networkMask : String := ""
  attachedRouters : List String := []
deriving DecidableEq, Repr

/-- One line of the Network LSA field scan (source lines 271-287):
patterns tried in order, first match wins; `Attached Router` lines are
accumulated in order. -/
def netFieldStep (f : NetFields) (line : String) : NetFields :=
  let t := trimChars line.data
  match lsAgeAt t with
  | some a => { f with age := a }
  | none =>
  match linkStateIdOf t with
  | some v => { f with linkStateId := v }
  | none =>
  match advRouterOf t with
  | some v => { f with advertisingRouter := v }
  | none =>
  match seqNumberOf t with
  | some v => { f with seqNumber := v }
  | none =>
  match checksumOf t with
  | some v => { f with checksum := v }
  | none =>
  match netMaskOf t with
  | some v => { f with networkMask := v }
  | none =>
  match attachedRouterOf t with
  | some v => { f with attachedRouters := f.attachedRouters ++ [v] }
  | none => f

/-- Process one block of `parseNetworkLSAs`: skip unless it contains a
`LS Type: Network Links` line; scan the fields; drop the block when no
link-state id was recovered. -/
def parseNetworkBlock (block : List String) (area : String) : Option RawNetworkLSA :=
  if !block.any isNetworkLinksLine then none
  else
    let f := block.foldl netFieldStep {}
    if f.linkStateId = "" then none
    else some { linkStateId := f.linkStateId,
                advertisingRouter := f.advertisingRouter, area := area,
                age := f.age, seqNumber := f.seqNumber, checksum := f.checksum,
                networkMask := f.networkMask,
                attachedRouters := f.attachedRouters }

def parseNetworkLSAsGo : List (List String) → String → List RawNetworkLSA
  | [], _ => []
  | b :: bs, area =>
    let area2 := updateArea b area
    match parseNetworkBlock b area2 with
    | some lsa => lsa :: parseNetworkLSAsGo bs area2
    | none => parseNetworkLSAsGo bs area2

def parseNetworkLSAs (lines : List String) : List RawNetworkLSA :=
  parseNetworkLSAsGo (splitIntoBlocks lines isLSAgeBoundary) "0"

/-! ## Main parser assembly (src/unnamed/part_007, `parseOSPFData`) -/

/-- The JS default sort comparator order on two strings: code-unit
lexicographic comparison (all strings involved are ASCII). -/
def charsLe : List Char → List Char → Bool
  | [], _ => true
  | _ :: _, [] => false
  | a :: as, b :: bs =>
    if a.toNat < b.toNat then true
    else if b.toNat < a.toNat then false
    else charsLe as bs

def strLe (a b : String) : Bool := charsLe a.data b.data

/-- `[a, b].sort().join(sep)`: JS default sort compares the two strings
by code units. -/
def sortedPairJoin (a b : String) (sep : String) : String :=
  if strLe a b then a ++ sep ++ b else b ++ sep ++ a

/-- Mutable state of the `parseOSPFData` build loops. -/
structure BuildState where
  routerMap : List (String × OSPFRouter)
  networkMap : List (String × OSPFNetwork)
  links : List OSPFLink
  areas : List String
  processedP2P : List String
deriving Repr

/-- Role computed for a first-seen Router LSA (source lines 29-32). -/
def roleOfFlags (isABR isASBR : Bool) : RouterRole :=
  if isABR && isASBR then .asbr
  else if isABR then .abr
  else if isASBR then .asbr
  else .internal

/-- Role merge for an already-known router (source lines 48-49): ABR
upgrades `internal` to `abr`; ASBR upgrades anything to `asbr`. -/
def upgradeRole (r : OSPFRouter) (isABR isASBR : Bool) : OSPFRouter :=
  let r1 := if isABR && r.role = .internal then { r with role := .abr } else r
  if isASBR then { r1 with role := .asbr } else r1

/-- One raw link of a Router LSA (source lines 54-82).  The `router`
local in the source aliases the map entry for `rid`, so its mutations
are modelled as read-modify-write on the map. -/
def routerLinkStep (rid : String) (area : String) (st : BuildState)
    (link : RawLink) : BuildState :=
  match jsMapGet st.routerMap rid with
  | none => st
  | some router =>
    match link.type with
    | .p2p =>
      let router2 :=
        if router.neighbors.contains link.linkId then router
        else { router with neighbors := router.neighbors ++ [link.linkId] }
      let st2 := { st with routerMap := jsMapSet st.routerMap rid router2 }
      let key := sortedPairJoin rid link.linkId "-"
      if st2.processedP2P.contains key then st2
      else
        { st2 with
          processedP2P := st2.processedP2P ++ [key],
          links := st2.links ++
            [{ id := "p2p-" ++ rid ++ "-" ++ link.linkId, source := rid,
               target := link.linkId, cost := link.metric, linkType := .p2p,
               interfaceInfo := some link.linkData, area := area }] }
    | .stub =>
      let netId := "stub-" ++ link.linkId ++ "-" ++ link.linkData
      if router.networks.contains netId then st
      else
        { st with
          routerMap := jsMapSet st.routerMap rid
            ({ router with networks := router.networks ++ [netId] }) }
    | .transit =>
      if router.networks.contains link.linkId then st
      else
        { st with
          routerMap := jsMapSet st.routerMap rid
            ({ router with networks := router.networks ++ [link.linkId] }) }

/-- One Router LSA of the build loop (source lines 25-83). -/
def routerLSAStep (st : BuildState) (lsa : RawRouterLSA) : BuildState :=
  let st1 := { st with areas := jsSetAdd st.areas lsa.area }
  let rid := lsa.routerId
  let st2 :=
    match jsMapGet st1.routerMap rid with
    | none =>
      { st1 with
        routerMap := jsMapSet st1.routerMap rid
          ({ id := rid, routerId := rid,
             role := roleOfFlags lsa.isABR lsa.isASBR, area := lsa.area,
             lsaTypes := ["Router LSA (Type 1)"], neighbors := [],
             networks := [], sequenceNumber := some lsa.seqNumber,
             age := some lsa.age, checksum := some lsa.checksum }) }
    | some existing =>
      { st1 with
        routerMap := jsMapSet st1.routerMap rid
          (upgradeRole existing lsa.isABR lsa.isASBR) }
  lsa.links.foldl (routerLinkStep rid lsa.area) st2

/-- Source lines 119-124: when the attached router is the advertising
router, tag it with the Network-LSA type marker. -/
def attachedRouterTag (adv : String) (st2 : BuildState) (ar : String) :
    BuildState :=
  if ar = adv then
    match jsMapGet st2.routerMap ar with
    | some r =>
      if r.lsaTypes.contains "Network LSA (Type 2)" then st2
      else
        { st2 with
          routerMap := jsMapSet st2.routerMap ar
            ({ r with lsaTypes := r.lsaTypes ++ ["Network LSA (Type 2)"] }) }
    | none => st2
  else st2

/-- One attached router of a Network LSA (source lines 99-125): emit a
transit link; synthesize a minimal internal router when the id is
unseen; tag the advertising router with the Network-LSA type marker. -/
def attachedRouterStep (nid adv area : String) (st : BuildState)
    (ar : String) : BuildState :=
  let st1 :=
    { st with links := st.links ++
        [{ id := "transit-" ++ nid ++ "-" ++ ar, source := nid, target := ar,
           cost := 0, linkType := .transit, interfaceInfo := none,
           area := area }] }
  let st2 :=
    if jsMapHas st1.routerMap ar then st1
    else
      { st1 with
        routerMap := jsMapSet st1.routerMap ar
          ({ id := ar, routerId := ar, role := .internal, area := area,
             lsaTypes := [], neighbors := [], networks := [nid],
             sequenceNumber := none, age := none, checksum := none }) }
  attachedRouterTag adv st2 ar

/-- One Network LSA of the build loop (source lines 86-126). -/
def networkLSAStep (st : BuildState) (nlsa : RawNetworkLSA) : BuildState :=
  let nid := nlsa.linkStateId
  let st1 :=
    { st with
      areas := jsSetAdd st.areas nlsa.area,
      networkMap := jsMapSet st.networkMap nid
        ({ id := nid, networkAddress := nid, mask := nlsa.networkMask,
           attachedRouters := nlsa.attachedRouters,
           designatedRouter := nlsa.advertisingRouter, area := nlsa.area }) }
  nlsa.attachedRouters.foldl
    (attachedRouterStep nid nlsa.advertisingRouter nlsa.area) st1

/-- `dedup` (source lines 343-354): keep the first link for each
`(sortedEndpoints, kind)` key. -/
def dedupGo (seen : List String) : List OSPFLink → List OSPFLink
  | [] => []
  | l :: rest =>
    let key := sortedPairJoin l.source l.target "|" ++ "|" ++ l.linkType.str
    if seen.contains key then dedupGo seen rest
    else l :: dedupGo (seen ++ [key]) rest

def dedup (links : List OSPFLink) : List OSPFLink := dedupGo [] links

/-- `Array.from(areas).sort()`: JS default sort, i.e. code-unit
lexicographic order on the area strings.  The area set is
duplicate-free, so any comparison sort produces this unique sorted
permutation; an insertion sort keeps the model kernel-executable. -/
def insertSorted (x : String) : List String → List String
  | [] => [x]
  | y :: ys => if strLe x y then x :: y :: ys else y :: insertSorted x ys

def sortStrings (l : List String) : List String := l.foldr insertSorted []

/-- The empty build state at the top of `parseOSPFData`. -/
def initBuildState : BuildState := ⟨[], [], [], [], []⟩

/-- The body of `parseOSPFData` after `input.split("\n")`. -/
def parseOSPFLines (lines : List String) : OSPFTopology :=
  let st1 := (parseRouterLSAs lines).foldl routerLSAStep initBuildState
  let st2 := (parseNetworkLSAs lines).foldl networkLSAStep st1
  { routers := st2.routerMap.map (·.2),
    networks := st2.networkMap.map (·.2),
    links := dedup st2.links,
    areas := sortStrings st2.areas }

/-- JS `input.split("\n")`: split on every newline; an empty input
yields `[""]`, a trailing newline yields a trailing empty line. -/
def splitLinesGo : List Char → List Char → List String
  | [], acc => [String.mk acc.reverse]
  | c :: cs, acc =>
    if c = '\n' then String.mk acc.reverse :: splitLinesGo cs []
    else splitLinesGo cs (c :: acc)

def splitLines (s : String) : List String := splitLinesGo s.data []

/-- `parseOSPFData` (src/unnamed/part_007, lines 13-134). -/
def parseOSPFData (input : String) : OSPFTopology :=
  parseOSPFLines (splitLines input)

/-- The empty topology (what the parser returns on unrecognizable
input). -/
def emptyTopology : OSPFTopology :=
  { routers := [], networks := [], links := [], areas := [] }

/-! ## Change ids (src/lib/topology-diff.ts, lines 3-6)

`nextChangeId` renders \`change-${Date.now()}-${changeCounter++}\`.
The wall clock and the module-level counter are passed explicitly; the
decimal rendering of a JS integer is `natRepr`. -/

/-- Decimal digits of `n`, most significant first, prepended to `acc`.
`fuel` bounds the number of division steps; any `fuel ≥ n` (we pass
`n + 1`) is enough, since `n / 10 < n` for positive `n`. -/
def natDigitsGo : Nat → Nat → List Char → List Char
  | 0, _, acc => acc
  | fuel + 1, n, acc =>
    let d := Char.ofNat (48 + n % 10)
    let m := n / 10
    if m = 0 then d :: acc else natDigitsGo fuel m (d :: acc)

/-- Decimal rendering of a natural number (JS `${n}` for an integer). -/
def natRepr (n : Nat) : String := String.mk (natDigitsGo (n + 1) n [])

/-- The id string `nextChangeId` produces for clock value `now` and
counter value `ctr`. -/
def mkChangeId (now ctr : Nat) : String :=
  "change-" ++ natRepr now ++ "-" ++ natRepr ctr

/-! ## Topology differ (src/lib/topology-diff.ts, `diffTopologies`) -/

inductive ChangeType where
  | routerAdded
  | routerRemoved
  | linkAdded
  | linkRemoved
  | metricChanged
  | areaChanged
deriving DecidableEq, Repr

/-- `oldValue`/`newValue` carry a link cost (number) for
`metric-changed` and an area string for `area-changed`. -/
inductive ChangeValue where
  | num (n : Nat)
  | str (s : String)
deriving DecidableEq, Repr

structure TopologyChange where
  id : String
  type : ChangeType
  routerId : Option String := none
  linkId : Option String := none
  description : String
  oldValue : Option ChangeValue := none
  newValue : Option ChangeValue := none
  timestamp : Nat
deriving DecidableEq, Repr

def routerIdsOf (t : OSPFTopology) : List String := t.routers.map (·.routerId)

/-- The change record pushed at source lines 24-30 (id assigned later in
push order, see `attachIds`). -/
def mkRouterAddedChange (r : OSPFRouter) (now : Nat) : TopologyChange :=
  { id := "", type := .routerAdded, routerId := some r.routerId,
    description := "Router " ++ r.routerId ++ " came online (Area " ++
      r.area ++ ")",
    timestamp := now }

/-- Source lines 22-32: routers of `new` whose id is not in `old`. -/
def routerAddedChanges (oldT newT : OSPFTopology) (now : Nat) :
    List TopologyChange :=
  newT.routers.filterMap fun r =>
    if (routerIdsOf oldT).contains r.routerId then none
    else some (mkRouterAddedChange r now)

/-- The change record pushed at source lines 37-43. -/
def mkRouterRemovedChange (r : OSPFRouter) (now : Nat) : TopologyChange :=
  { id := "", type := .routerRemoved, routerId := some r.routerId,
    description := "Router " ++ r.routerId ++ " went offline",
    timestamp := now }

/-- Source lines 35-45: routers of `old` whose id is not in `new`. -/
def routerRemovedChanges (oldT newT : OSPFTopology) (now : Nat) :
    List TopologyChange :=
  oldT.routers.filterMap fun r =>
    if (routerIdsOf newT).contains r.routerId then none
    else some (mkRouterRemovedChange r now)

/-- `linkKey` (source lines 48-49): `[src, tgt].sort().join("<->")`. -/
def linkKey (src tgt : String) : String := sortedPairJoin src tgt "<->"

/-- The link map of a snapshot, keyed by sorted endpoint pair (source
lines 51-59). -/
def linkMapOf (t : OSPFTopology) : List (String × OSPFLink) :=
  mkJsMap (t.links.map fun l => (linkKey l.source l.target, l))

/-- The change record pushed at source lines 64-70. -/
def mkLinkAddedChange (l : OSPFLink) (now : Nat) : TopologyChange :=
  { id := "", type := .linkAdded, linkId := some l.id,
    description := "Link " ++ l.source ++ " <-> " ++ l.target ++
      " established (cost: " ++ natRepr l.cost ++ ")",
    timestamp := now }

/-- Source lines 62-72: keys only in the new map. -/
def linkAddedChanges (oldT newT : OSPFTopology) (now : Nat) :
    List TopologyChange :=
  (linkMapOf newT).filterMap fun kv =>
    if jsMapHas (linkMapOf oldT) kv.1 then none
    else some (mkLinkAddedChange kv.2 now)

/-- The change record pushed at source lines 77-83. -/
def mkLinkRemovedChange (l : OSPFLink) (now : Nat) : TopologyChange :=
  { id := "", type := .linkRemoved, linkId := some l.id,
    description := "Link " ++ l.source ++ " <-> " ++ l.target ++
      " disconnected",
    timestamp := now }

/-- Source lines 75-85: keys only in the old map. -/
def linkRemovedChanges (oldT newT : OSPFTopology) (now : Nat) :
    List TopologyChange :=
  (linkMapOf oldT).filterMap fun kv =>
    if jsMapHas (linkMapOf newT) kv.1 then none
    else some (mkLinkRemovedChange kv.2 now)

/-- The change record pushed at source lines 91-99. -/
def mkMetricChangedChange (oldLink newLink : OSPFLink) (now : Nat) :
    TopologyChange :=
  { id := "", type := .metricChanged, linkId := some newLink.id,
    description := "Link " ++ newLink.source ++ " <-> " ++ newLink.target ++
      " cost changed: " ++ natRepr oldLink.cost ++ " -> " ++
      natRepr newLink.cost,
    oldValue := some (.num oldLink.cost),
    newValue := some (.num newLink.cost), timestamp := now }

/-- Source lines 88-101: keys in both maps with differing cost. -/
def metricChangedChanges (oldT newT : OSPFTopology) (now : Nat) :
    List TopologyChange :=
  (linkMapOf newT).filterMap fun kv =>
    match jsMapGet (linkMapOf oldT) kv.1 with
    | some oldLink =>
      if oldLink.cost ≠ kv.2.cost then
        some (mkMetricChangedChange oldLink kv.2 now)
      else none
    | none => none

/-- `new Map(oldTopo.routers.map(r => [r.routerId, r]))` (source line
104). -/
def routerMapOf (t : OSPFTopology) : List (String × OSPFRouter) :=
  mkJsMap (t.routers.map fun r => (r.routerId, r))

/-- The change record pushed at source lines 108-116. -/
def mkAreaChangedChange (oldRouter r : OSPFRouter) (now : Nat) :
    TopologyChange :=
  { id := "", type := .areaChanged, routerId := some r.routerId,
    description := "Router " ++ r.routerId ++ " moved from Area " ++
      oldRouter.area ++ " to Area " ++ r.area,
    oldValue := some (.str oldRouter.area),
    newValue := some (.str r.area), timestamp := now }

/-- Source lines 105-118: routers of `new` present in `old` with a
different area. -/
def areaChangedChanges (oldT newT : OSPFTopology) (now : Nat) :
    List TopologyChange :=
  newT.routers.filterMap fun r =>
    match jsMapGet (routerMapOf oldT) r.routerId with
    | some oldRouter =>
      if oldRouter.area ≠ r.area then
        some (mkAreaChangedChange oldRouter r now)
      else none
    | none => none

/-- The changes of one `diffTopologies` call in push order, with the id
field still blank. -/
def protoDiff (oldT newT : OSPFTopology) (now : Nat) : List TopologyChange :=
  routerAddedChanges oldT newT now ++ routerRemovedChanges oldT newT now ++
  linkAddedChanges oldT newT now ++ linkRemovedChanges oldT newT now ++
  metricChangedChanges oldT newT now ++ areaChangedChanges oldT newT now

/-- Assign the ids the inline `nextChangeId()` calls produce: the k-th
pushed change (0-based) gets counter `c0 + k`; returns the counter
after the call. -/
def attachIds : List TopologyChange → Nat → Nat → List TopologyChange × Nat
  | [], _, c0 => ([], c0)
  | ch :: rest, now, c0 =>
    let r := attachIds rest now (c0 + 1)
    ({ ch with id := mkChangeId now c0 } :: r.1, r.2)

/-- `diffTopologies` (src/lib/topology-diff.ts, lines 11-121).  The
module-level `changeCounter` and the wall clock are passed explicitly:
`now` is the clock value during the call (the source reads `Date.now()`
once for timestamps and again inside each `nextChangeId`; both reads
are modelled as the same value), `c0` the counter before the call. -/
def diffTopologies (oldT newT : OSPFTopology) (now c0 : Nat) :
    List TopologyChange × Nat :=
  attachIds (protoDiff oldT newT now) now c0

/-! ## Graph builder (src/lib/layout-engine.ts, `buildGraph`) -/

inductive NodeType where
  | router
  | network
deriving DecidableEq, Repr

inductive EntityStatus where
  | new
  | removed
  | changed
  | stable
deriving DecidableEq, Repr

structure GraphNode where
  id : String
  type : NodeType
  label : String
  role : Option RouterRole := none
  area : String
  x : ℚ := 0
  y : ℚ := 0
  data : Sum OSPFRouter OSPFNetwork
  status : Option EntityStatus := none
  statusTimestamp : Option Nat := none
deriving DecidableEq, Repr

structure GraphEdge where
  id : String
  source : String
  target : String
  cost : Nat
  linkType : LinkKind
  area : String
  interfaceInfo : Option String := none
  status : Option EntityStatus := none
  statusTimestamp : Option Nat := none
  oldCost : Option Nat := none
deriving DecidableEq, Repr

/-- `buildGraph` (src/lib/layout-engine.ts, lines 30-79) without its
final `applyLayout` call: that call mutates only the `x`/`y`
coordinates through the floating-point layout algorithms and is not
modelled here (no claim in scope depends on coordinates), so nodes
keep the initial `x = y = 0` the source assigns. -/
def buildGraph (topology : OSPFTopology) : List GraphNode × List GraphEdge :=
  (topology.routers.map (fun r =>
     { id := r.id, type := .router, label := r.routerId, role := some r.role,
       area := r.area, x := 0, y := 0, data := .inl r : GraphNode }) ++
   topology.networks.map (fun nw =>
     { id := nw.id, type := .network, label := nw.networkAddress,
       area := nw.area, x := 0, y := 0, data := .inr nw : GraphNode }),
   topology.links.map fun l =>
     { id := l.id, source := l.source, target := l.target, cost := l.cost,
       linkType := l.linkType, area := l.area,
       interfaceInfo := l.interfaceInfo : GraphEdge })

/-! ## Auto-fit (src/lib/layout-engine.ts, `computeAutoFit`)

Exact over ℚ: the source computes with JS doubles, but min/max,
addition, subtraction, multiplication and division are the only
operations involved, so the ℚ model is the ideal-arithmetic reading of
the same formula. -/

structure AutoFitResult where
  zoom : ℚ
  panX : ℚ
  panY : ℚ
deriving DecidableEq, Repr

/-- `computeAutoFit` (lines 81-107).  The `Infinity`-seeded min/max
loops over a non-empty node list are folds seeded with the first
node's coordinates. -/
def computeAutoFit (nodes : List GraphNode)
    (viewportWidth viewportHeight : ℚ) : AutoFitResult :=
  match nodes with
  | [] => { zoom := 1, panX := 0, panY := 0 }
  | n0 :: rest =>
    let padding : ℚ := 80
    let minX := rest.foldl (fun m n => min m n.x) n0.x
    let minY := rest.foldl (fun m n => min m n.y) n0.y
    let maxX := rest.foldl (fun m n => max m n.x) n0.x
    let maxY := rest.foldl (fun m n => max m n.y) n0.y
    let contentW := maxX - minX + padding * 2
    let contentH := maxY - minY + padding * 2
    if contentW ≤ 0 ∨ contentH ≤ 0 then { zoom := 1, panX := 0, panY := 0 }
    else
      let zoom := min (min (viewportWidth / contentW) (viewportHeight / contentH)) (3 / 2)
      let centerX := (minX + maxX) / 2
      let centerY := (minY + maxY) / 2
      { zoom := max (1 / 20) zoom,
        panX := viewportWidth / 2 - centerX * zoom,
        panY := viewportHeight / 2 - centerY * zoom }

/-! ## Status annotator (src/lib/topology-diff.ts, lines 127-236) -/

/-- Case-sensitive literal match (for the un-flagged description
regexes of `applyEdgeStatuses`). -/
def matchCS : List Char → List Char → Option (List Char)
  | [], s => some s
  | _ :: _, [] => none
  | p :: ps, c :: cs => if c = p then matchCS ps cs else none

/-- A lazy group `(.+?)` followed by the literal `stop`, then the
continuation `k group rest`: the shortest non-empty group is tried
first; on failure of either the literal or the continuation the group
is extended by one character (regex backtracking).  `acc` holds the
group so far in reverse; the subject contains no newline (which `.`
would reject). -/
def lazySplitGo {α : Type} (stop : List Char)
    (k : List Char → List Char → Option α) :
    List Char → List Char → Option α
  | acc, rest =>
    match
      match matchCS stop rest with
      | some r => k acc.reverse r
      | none => none
    with
    | some x => some x
    | none =>
      match rest with
      | [] => none
      | d :: ds => lazySplitGo stop k (d :: acc) ds

/-- `/Link (.+?) <-> (.+?) /` applied at the current position. -/
def matchLinkDescAt (s : List Char) : Option (String × String) :=
  (matchCS "Link ".data s).bind fun r =>
    match r with
    | [] => none
    | c :: cs =>
      lazySplitGo " <-> ".data
        (fun g1 r2 =>
          match r2 with
          | [] => none
          | d :: ds =>
            lazySplitGo " ".data
              (fun g2 _ => some (String.mk g1, String.mk g2)) [d] ds)
        [c] cs

/-- `c.description.match(/Link (.+?) <-> (.+?) /)`: leftmost match,
returning the two captures. -/
def matchLinkDesc (s : String) : Option (String × String) :=
  searchO matchLinkDescAt s.data

/-- The id set collected for one change type in `applyNodeStatuses`
(lines 137-141); the truthiness test on `c.routerId` drops a missing or
empty id. -/
def routerIdSetStep (ty : ChangeType) (s : List String)
    (c : TopologyChange) : List String :=
  if c.type = ty then
    match c.routerId with
    | some r => if r = "" then s else jsSetAdd s r
    | none => s
  else s

def routerIdSetOf (changes : List TopologyChange) (ty : ChangeType) :
    List String :=
  changes.foldl (routerIdSetStep ty) []

/-- `applyNodeStatuses` (lines 127-166).  `now` is the `Date.now()`
read at the top of the call. -/
def applyNodeStatuses (nodes : List GraphNode)
    (changes : List TopologyChange) (oldNodes : List GraphNode)
    (now : Nat) : List GraphNode :=
  let addedRouterIds := routerIdSetOf changes .routerAdded
  let removedRouterIds := routerIdSetOf changes .routerRemoved
  let changedRouterIds := routerIdSetOf changes .areaChanged
  let result := nodes.map fun node =>
    if addedRouterIds.contains node.id then
      { node with status := some .new, statusTimestamp := some now }
    else if changedRouterIds.contains node.id then
      { node with status := some .changed, statusTimestamp := some now }
    else { node with status := some .stable }
  result ++ oldNodes.filterMap fun oldNode =>
    if removedRouterIds.contains oldNode.id then
      some { oldNode with status := some .removed, statusTimestamp := some now }
    else none

/-- The link-key set collected for one change type in
`applyEdgeStatuses` (lines 186-195): the key is re-extracted from the
human-readable description via the lazy regex. -/
def linkKeysStep (ty : ChangeType) (s : List String)
    (c : TopologyChange) : List String :=
  if c.type = ty then
    match c.linkId with
    | some i =>
      if i = "" then s
      else
        match matchLinkDesc c.description with
        | some p => jsSetAdd s (linkKey p.1 p.2)
        | none => s
    | none => s
  else s

def linkKeysOf (changes : List TopologyChange) (ty : ChangeType) :
    List String :=
  changes.foldl (linkKeysStep ty) []

/-- The `changedLinkKeys` map (lines 196-203): key extracted from the
description, value the numeric `oldValue`.  (A non-numeric `oldValue`
cannot occur on the `metric-changed` changes the differ emits and is
treated as no entry.) -/
def changedLinkMapOf (changes : List TopologyChange) : List (String × Nat) :=
  changes.foldl
    (fun m c =>
      if c.type = .metricChanged then
        match matchLinkDesc c.description with
        | some p =>
          match c.oldValue with
          | some (.num n) => jsMapSet m (linkKey p.1 p.2) n
          | _ => m
        | none => m
      else m) []

/-- `applyEdgeStatuses` (lines 172-236). -/
def applyEdgeStatuses (edges : List GraphEdge)
    (changes : List TopologyChange) (oldEdges : List GraphEdge)
    (now : Nat) : List GraphEdge :=
  let addedLinkKeys := linkKeysOf changes .linkAdded
  let removedLinkKeys := linkKeysOf changes .linkRemoved
  let changedLinkKeys := changedLinkMapOf changes
  let result := edges.map fun edge =>
    let key := linkKey edge.source edge.target
    if addedLinkKeys.contains key then
      { edge with status := some .new, statusTimestamp := some now }
    else
      match jsMapGet changedLinkKeys key with
      | some oc =>
        { edge with status := some .changed, statusTimestamp := some now,
                    oldCost := some oc }
      | none => { edge with status := some .stable }
  result ++ oldEdges.filterMap fun oldEdge =>
    if removedLinkKeys.contains (linkKey oldEdge.source oldEdge.target) then
      some { oldEdge with status := some .removed, statusTimestamp := some now }
    else none

/-! ## Lemmas about the JS `Map`/`Set` models -/

theorem jsMapGet_nil {α : Type} (k : String) :
    jsMapGet ([] : List (String × α)) k = none := rfl

theorem jsMapGet_cons {α : Type} (q : String × α) (rest : List (String × α))
    (k : String) :
    jsMapGet (q :: rest) k = if q.1 = k then some q.2 else jsMapGet rest k := by
  by_cases h : q.1 = k <;> simp [jsMapGet, List.find?, h]

theorem jsMapSet_nil {α : Type} (k : String) (v : α) :
    jsMapSet [] k v = [(k, v)] := rfl

theorem jsMapSet_cons {α : Type} (q : String × α) (rest : List (String × α))
    (k : String) (v : α) :
    jsMapSet (q :: rest) k v =
      if q.1 = k then (k, v) :: rest else q :: jsMapSet rest k v := by
  obtain ⟨q1, q2⟩ := q
  simp [jsMapSet]

theorem jsMapGet_set {α : Type} (m : List (String × α)) (k k' : String)
    (v : α) :
    jsMapGet (jsMapSet m k v) k' = if k = k' then some v else jsMapGet m k' := by
  induction m with
  | nil =>
    rw [jsMapSet_nil, jsMapGet_cons]
  | cons q rest ih =>
    rw [jsMapSet_cons]
    by_cases h : q.1 = k
    · rw [if_pos h, jsMapGet_cons, jsMapGet_cons]
      by_cases h2 : k = k'
      · simp [h2]
      · have : ¬ (q.1 = k') := fun hq => h2 ((h.symm.trans hq))
        simp [h2, this]
    · rw [if_neg h, jsMapGet_cons, jsMapGet_cons, ih]
      by_cases h2 : q.1 = k'
      · by_cases h3 : k = k'
        · exact absurd (h2.trans h3.symm) h
        · simp [h2, h3]
      · by_cases h3 : k = k' <;> simp [h2, h3]

theorem jsMapHas_nil {α : Type} (k : String) :
    jsMapHas ([] : List (String × α)) k = false := rfl

theorem jsMapHas_cons {α : Type} (q : String × α) (rest : List (String × α))
    (k : String) :
    jsMapHas (q :: rest) k = (q.1 = k || jsMapHas rest k) := by
  rw [jsMapHas, jsMapGet_cons]
  by_cases h : q.1 = k <;> simp [h, jsMapHas]

theorem jsMapHas_set {α : Type} (m : List (String × α)) (k k' : String)
    (v : α) :
    jsMapHas (jsMapSet m k v) k' = (k = k' || jsMapHas m k') := by
  simp only [jsMapHas, jsMapGet_set]
  by_cases h : k = k' <;> simp [h]

theorem mem_jsMapSet {α : Type} {m : List (String × α)} {k : String}
    {v : α} {p : String × α} (hp : p ∈ jsMapSet m k v) :
    p = (k, v) ∨ p ∈ m := by
  induction m with
  | nil =>
    rw [jsMapSet_nil] at hp
    exact Or.inl (List.mem_singleton.mp hp)
  | cons q rest ih =>
    rw [jsMapSet_cons] at hp
    by_cases h : q.1 = k
    · rw [if_pos h] at hp
      rcases List.mem_cons.mp hp with h1 | h1
      · exact Or.inl h1
      · exact Or.inr (List.mem_cons_of_mem _ h1)
    · rw [if_neg h] at hp
      rcases List.mem_cons.mp hp with h1 | h1
      · exact Or.inr (by simp [h1])
      · rcases ih h1 with h2 | h2
        · exact Or.inl h2
        · exact Or.inr (List.mem_cons_of_mem _ h2)

theorem jsMapHas_eq_keys_mem {α : Type} (m : List (String × α)) (k : String) :
    jsMapHas m k = true ↔ k ∈ m.map Prod.fst := by
  induction m with
  | nil => simp [jsMapHas_nil]
  | cons q rest ih =>
    rw [jsMapHas_cons]
    simp only [List.map_cons, List.mem_cons]
    constructor
    · intro h
      rcases Bool.or_eq_true_iff.mp h with h1 | h1
      · exact Or.inl (of_decide_eq_true h1).symm
      · exact Or.inr (ih.mp h1)
    · intro h
      rcases h with h1 | h1
      · exact Bool.or_eq_true_iff.mpr (Or.inl (by simp [h1]))
      · exact Bool.or_eq_true_iff.mpr (Or.inr (ih.mpr h1))

theorem keys_jsMapSet {α : Type} (m : List (String × α)) (k : String)
    (v : α) (hk : jsMapHas m k = true) :
    (jsMapSet m k v).map Prod.fst = m.map Prod.fst := by
  induction m with
  | nil => simp [jsMapHas_nil] at hk
  | cons q rest ih =>
    rw [jsMapHas_cons] at hk
    rw [jsMapSet_cons]
    by_cases h : q.1 = k
    · rw [if_pos h]; simp [h]
    · rw [if_neg h]
      simp only [List.map_cons, List.cons.injEq, true_and]
      apply ih
      rcases Bool.or_eq_true_iff.mp hk with h1 | h1
      · exact absurd (by simpa using h1) h
      · exact h1

theorem keys_jsMapSet_fresh {α : Type} (m : List (String × α)) (k : String)
    (v : α) (hk : jsMapHas m k = false) :
    (jsMapSet m k v).map Prod.fst = m.map Prod.fst ++ [k] := by
  induction m with
  | nil => simp [jsMapSet_nil]
  | cons q rest ih =>
    rw [jsMapHas_cons] at hk
    rw [jsMapSet_cons]
    by_cases h : q.1 = k
    · simp [h] at hk
    · rw [if_neg h]
      simp only [List.map_cons, List.cons_append, List.cons.injEq, true_and]
      apply ih
      exact (Bool.or_eq_false_iff.mp hk).2

theorem keys_nodup_jsMapSet {α : Type} (m : List (String × α)) (k : String)
    (v : α) (hm : (m.map Prod.fst).Nodup) :
    ((jsMapSet m k v).map Prod.fst).Nodup := by
  by_cases h : jsMapHas m k
  · rw [keys_jsMapSet m k v h]; exact hm
  · rw [keys_jsMapSet_fresh m k v (by simpa using h)]
    refine List.Nodup.append hm (List.nodup_singleton k) ?_
    intro a ha hb
    simp only [List.mem_singleton] at hb
    subst hb
    exact h ((jsMapHas_eq_keys_mem m a).mpr ha)

theorem mem_of_jsMapGet_eq_some {α : Type} {m : List (String × α)}
    {k : String} {v : α} (h : jsMapGet m k = some v) : (k, v) ∈ m := by
  induction m with
  | nil => simp [jsMapGet_nil] at h
  | cons q rest ih =>
    rw [jsMapGet_cons] at h
    by_cases hq : q.1 = k
    · rw [if_pos hq] at h
      injection h with h2
      have hq2 : q = (k, v) := by
        obtain ⟨q1, q2⟩ := q
        simp only at hq h2
        simp [hq, h2]
      rw [← hq2]
      exact List.mem_cons_self q rest
    · rw [if_neg hq] at h
      exact List.mem_cons_of_mem _ (ih h)

theorem jsMapGet_eq_some_of_mem {α : Type} {m : List (String × α)}
    {k : String} {v : α} (hm : (m.map Prod.fst).Nodup) (h : (k, v) ∈ m) :
    jsMapGet m k = some v := by
  induction m with
  | nil => simp at h
  | cons q rest ih =>
    simp only [List.map_cons, List.nodup_cons] at hm
    rw [jsMapGet_cons]
    rcases List.mem_cons.mp h with h1 | h1
    · rw [← h1]; simp
    · have hne : ¬ (q.1 = k) := by
        intro hq
        exact hm.1 (hq ▸ (List.mem_map.mpr ⟨(k, v), h1, rfl⟩))
      rw [if_neg hne]
      exact ih hm.2 h1

theorem jsMapGet_append {α : Type} (xs ys : List (String × α)) (k : String) :
    jsMapGet (xs ++ ys) k =
      (jsMapGet xs k).orElse (fun _ => jsMapGet ys k) := by
  induction xs with
  | nil => simp [jsMapGet_nil, Option.orElse]
  | cons q rest ih =>
    rw [List.cons_append, jsMapGet_cons, jsMapGet_cons, ih]
    by_cases h : q.1 = k <;> simp [h, Option.orElse]

theorem jsMapGet_foldl_set {α : Type} (l : List (String × α))
    (m0 : List (String × α)) (k : String) :
    jsMapGet (l.foldl (fun m p => jsMapSet m p.1 p.2) m0) k =
      (jsMapGet l.reverse k).orElse (fun _ => jsMapGet m0 k) := by
  induction l generalizing m0 with
  | nil => simp [jsMapGet_nil, Option.orElse]
  | cons p rest ih =>
    rw [List.foldl_cons, ih, List.reverse_cons, jsMapGet_append]
    cases h : jsMapGet rest.reverse k with
    | some w => simp [Option.orElse]
    | none =>
      rw [jsMapGet_set]
      simp only [Option.orElse, jsMapGet_cons, jsMapGet_nil]
      by_cases h2 : p.1 = k <;> simp [h2]

theorem keys_nodup_mkJsMap {α : Type} (l : List (String × α)) :
    ((mkJsMap l).map Prod.fst).Nodup := by
  suffices h : ∀ m0 : List (String × α), (m0.map Prod.fst).Nodup →
      ((l.foldl (fun m p => jsMapSet m p.1 p.2) m0).map Prod.fst).Nodup by
    exact h [] (by simp)
  induction l with
  | nil => intro m0 hm0; simpa using hm0
  | cons p rest ih =>
    intro m0 hm0
    exact ih _ (keys_nodup_jsMapSet m0 p.1 p.2 hm0)

theorem mem_mkJsMap {α : Type} {l : List (String × α)} {p : String × α}
    (hp : p ∈ mkJsMap l) : p ∈ l := by
  suffices h : ∀ m0 : List (String × α),
      p ∈ l.foldl (fun m q => jsMapSet m q.1 q.2) m0 → p ∈ m0 ∨ p ∈ l by
    rcases h [] hp with h1 | h1
    · simp at h1
    · exact h1
  clear hp
  induction l with
  | nil =>
    intro m0 h
    exact Or.inl (by simpa using h)
  | cons q rest ih =>
    intro m0 h
    rw [List.foldl_cons] at h
    rcases ih (jsMapSet m0 q.1 q.2) h with h1 | h1
    · rcases mem_jsMapSet h1 with h2 | h2
      · exact Or.inr (by simp [h2])
      · exact Or.inl h2
    · exact Or.inr (List.mem_cons_of_mem _ h1)

theorem jsMapHas_foldl_set {α : Type} (l : List (String × α))
    (m0 : List (String × α)) (k : String) :
    jsMapHas (l.foldl (fun m p => jsMapSet m p.1 p.2) m0) k =
      (jsMapHas m0 k || l.any (fun p => p.1 = k)) := by
  induction l generalizing m0 with
  | nil => simp
  | cons p rest ih =>
    simp only [List.foldl_cons, ih, jsMapHas_set, List.any_cons]
    by_cases h : p.1 = k <;>
      simp [h, Bool.or_comm, Bool.or_assoc, Bool.or_left_comm]

theorem jsMapHas_mkJsMap_iff {α : Type} (l : List (String × α)) (k : String) :
    jsMapHas (mkJsMap l) k = true ↔ ∃ v, (k, v) ∈ l := by
  rw [mkJsMap, jsMapHas_foldl_set]
  constructor
  · intro h
    rcases Bool.or_eq_true_iff.mp h with h1 | h1
    · simp [jsMapHas_nil] at h1
    · obtain ⟨p, hp, hpk⟩ := List.any_eq_true.mp h1
      refine ⟨p.2, ?_⟩
      have : p.1 = k := by simpa using hpk
      rw [← this]
      exact hp
  · rintro ⟨v, hv⟩
    apply Bool.or_eq_true_iff.mpr
    right
    exact List.any_eq_true.mpr ⟨(k, v), hv, by simp⟩

theorem mem_jsMapGet_mkJsMap {α : Type} {l : List (String × α)} {k : String}
    {v : α} (h : jsMapGet (mkJsMap l) k = some v) : (k, v) ∈ l :=
  mem_mkJsMap (mem_of_jsMapGet_eq_some h)

/-- `new Map(l)` reads like a right-to-left (last pair wins) lookup of
the original pair list. -/
theorem jsMapGet_mkJsMap_eq_reverse {α : Type} (l : List (String × α))
    (k : String) :
    jsMapGet (mkJsMap l) k = jsMapGet l.reverse k := by
  rw [mkJsMap, jsMapGet_foldl_set]
  cases h : jsMapGet l.reverse k <;> simp [h, Option.orElse, jsMapGet_nil]

/-- On a pair list with duplicate-free keys, `new Map(l)` looks up to
the unique matching pair. -/
theorem jsMapGet_mkJsMap_nodup_iff {α : Type} {l : List (String × α)}
    (hl : (l.map Prod.fst).Nodup) (k : String) (v : α) :
    jsMapGet (mkJsMap l) k = some v ↔ (k, v) ∈ l := by
  rw [jsMapGet_mkJsMap_eq_reverse]
  constructor
  · intro h
    exact List.mem_reverse.mp (mem_of_jsMapGet_eq_some h)
  · intro h
    apply jsMapGet_eq_some_of_mem
    · rw [List.map_reverse]
      exact List.nodup_reverse.mpr hl
    · exact List.mem_reverse.mpr h

/-! ## Lemmas about the set/fold helpers of the annotator -/

theorem mem_jsSetAdd (s : List String) (x y : String) :
    y ∈ jsSetAdd s x ↔ y ∈ s ∨ y = x := by
  unfold jsSetAdd
  by_cases h : s.contains x
  · rw [if_pos h]
    constructor
    · exact Or.inl
    · rintro (h1 | h1)
      · exact h1
      · subst h1; exact List.elem_iff.mp h
  · rw [if_neg h]
    simp

theorem mem_routerIdSetStep (ty : ChangeType) (s : List String)
    (c : TopologyChange) (r : String) :
    r ∈ routerIdSetStep ty s c ↔
      r ∈ s ∨ (c.type = ty ∧ c.routerId = some r ∧ r ≠ "") := by
  by_cases h1 : c.type = ty
  · cases hc : c.routerId with
    | none => simp [routerIdSetStep, h1, hc]
    | some r2 =>
      by_cases h2 : r2 = ""
      · subst h2
        have hstep : routerIdSetStep ty s c = s := by
          simp [routerIdSetStep, h1, hc]
        rw [hstep]
        constructor
        · exact Or.inl
        · rintro (h3 | ⟨_, h3, h4⟩)
          · exact h3
          · injection h3 with h3
            exact absurd h3.symm h4
      · have hstep : routerIdSetStep ty s c = jsSetAdd s r2 := by
          simp [routerIdSetStep, h1, hc, h2]
        rw [hstep, mem_jsSetAdd]
        constructor
        · rintro (h3 | h3)
          · exact Or.inl h3
          · exact Or.inr ⟨h1, by rw [h3], by rw [h3]; exact h2⟩
        · rintro (h3 | ⟨_, h3, _⟩)
          · exact Or.inl h3
          · injection h3 with h3
            exact Or.inr h3.symm
  · simp [routerIdSetStep, h1]

theorem mem_routerIdSetOf (changes : List TopologyChange) (ty : ChangeType)
    (r : String) :
    r ∈ routerIdSetOf changes ty ↔
      ∃ c ∈ changes, c.type = ty ∧ c.routerId = some r ∧ r ≠ "" := by
  rw [routerIdSetOf]
  suffices h : ∀ s0 : List String, r ∈ changes.foldl (routerIdSetStep ty) s0 ↔
      r ∈ s0 ∨ ∃ c ∈ changes, c.type = ty ∧ c.routerId = some r ∧ r ≠ "" by
    rw [h []]; simp
  induction changes with
  | nil => intro s0; simp
  | cons c rest ih =>
    intro s0
    rw [List.foldl_cons, ih (routerIdSetStep ty s0 c),
      List.exists_mem_cons_iff, mem_routerIdSetStep]
    tauto

theorem mem_linkKeysStep (ty : ChangeType) (s : List String)
    (c : TopologyChange) (k : String) :
    k ∈ linkKeysStep ty s c ↔
      k ∈ s ∨ (c.type = ty ∧ ∃ i, c.linkId = some i ∧ i ≠ "" ∧
        ∃ p, matchLinkDesc c.description = some p ∧ k = linkKey p.1 p.2) := by
  by_cases h1 : c.type = ty
  · cases hc : c.linkId with
    | none => simp [linkKeysStep, h1, hc]
    | some i =>
      by_cases h2 : i = ""
      · subst h2
        have hstep : linkKeysStep ty s c = s := by
          simp [linkKeysStep, h1, hc]
        rw [hstep]
        constructor
        · exact Or.inl
        · rintro (h3 | ⟨_, j, h3, h4, _⟩)
          · exact h3
          · injection h3 with h3
            exact absurd h3.symm h4
      · cases hd : matchLinkDesc c.description with
        | none =>
          have hstep : linkKeysStep ty s c = s := by
            simp [linkKeysStep, h1, hc, h2, hd]
          rw [hstep]
          constructor
          · exact Or.inl
          · rintro (h3 | ⟨_, j, h3, h4, p, h5, h6⟩)
            · exact h3
            · exact absurd h5 (by simp)
        | some p =>
          have hstep : linkKeysStep ty s c = jsSetAdd s (linkKey p.1 p.2) := by
            simp [linkKeysStep, h1, hc, h2, hd]
          rw [hstep, mem_jsSetAdd]
          constructor
          · rintro (h3 | h3)
            · exact Or.inl h3
            · exact Or.inr ⟨h1, i, rfl, h2, p, rfl, h3⟩
          · rintro (h3 | ⟨_, j, h3, h4, q, h5, h6⟩)
            · exact Or.inl h3
            · injection h5 with h5
              subst h5
              exact Or.inr h6
  · simp [linkKeysStep, h1]

theorem mem_linkKeysOf (changes : List TopologyChange) (ty : ChangeType)
    (k : String) :
    k ∈ linkKeysOf changes ty ↔
      ∃ c ∈ changes, c.type = ty ∧ ∃ i, c.linkId = some i ∧ i ≠ "" ∧
        ∃ p, matchLinkDesc c.description = some p ∧ k = linkKey p.1 p.2 := by
  rw [linkKeysOf]
  suffices h : ∀ s0 : List String, k ∈ changes.foldl (linkKeysStep ty) s0 ↔
      k ∈ s0 ∨ ∃ c ∈ changes, c.type = ty ∧ ∃ i, c.linkId = some i ∧ i ≠ "" ∧
        ∃ p, matchLinkDesc c.description = some p ∧ k = linkKey p.1 p.2 by
    rw [h []]; simp
  induction changes with
  | nil => intro s0; simp
  | cons c rest ih =>
    intro s0
    rw [List.foldl_cons, ih (linkKeysStep ty s0 c),
      List.exists_mem_cons_iff, mem_linkKeysStep]
    exact or_assoc

/-! ## Lemmas about `attachIds` -/

theorem attachIds_cons (ch : TopologyChange) (rest : List TopologyChange)
    (now c0 : Nat) :
    attachIds (ch :: rest) now c0 =
      ({ ch with id := mkChangeId now c0 } :: (attachIds rest now (c0 + 1)).1,
       (attachIds rest now (c0 + 1)).2) := rfl

theorem attachIds_snd (l : List TopologyChange) (now c0 : Nat) :
    (attachIds l now c0).2 = c0 + l.length := by
  induction l generalizing c0 with
  | nil => simp [attachIds]
  | cons ch rest ih =>
    rw [attachIds_cons]
    simp [ih, Nat.add_assoc, Nat.add_comm 1]

theorem attachIds_map_id (l : List TopologyChange) (now c0 : Nat) :
    (attachIds l now c0).1.map (·.id) =
      (List.range' c0 l.length).map (mkChangeId now) := by
  induction l generalizing c0 with
  | nil => simp [attachIds]
  | cons ch rest ih =>
    rw [attachIds_cons, List.length_cons, List.range'_succ]
    simp [ih]

/-- Existential statements about the non-id fields of the changes pass
through the id assignment unchanged. -/
theorem exists_mem_attachIds_iff (l : List TopologyChange) (now c0 : Nat)
    (p : ChangeType → Option String → Option String → String →
      Option ChangeValue → Option ChangeValue → Nat → Prop) :
    (∃ c ∈ (attachIds l now c0).1,
        p c.type c.routerId c.linkId c.description c.oldValue c.newValue
          c.timestamp) ↔
      ∃ c ∈ l,
        p c.type c.routerId c.linkId c.description c.oldValue c.newValue
          c.timestamp := by
  induction l generalizing c0 with
  | nil => simp [attachIds]
  | cons ch rest ih =>
    rw [attachIds_cons]
    rw [List.exists_mem_cons_iff, List.exists_mem_cons_iff, ih]

/-- Universal statements about the non-id fields of the changes pass
through the id assignment unchanged. -/
theorem forall_mem_attachIds_iff (l : List TopologyChange) (now c0 : Nat)
    (p : ChangeType → Option String → Option String → String →
      Option ChangeValue → Option ChangeValue → Nat → Prop) :
    (∀ c ∈ (attachIds l now c0).1,
        p c.type c.routerId c.linkId c.description c.oldValue c.newValue
          c.timestamp) ↔
      ∀ c ∈ l,
        p c.type c.routerId c.linkId c.description c.oldValue c.newValue
          c.timestamp := by
  induction l generalizing c0 with
  | nil => simp [attachIds]
  | cons ch rest ih =>
    rw [attachIds_cons]
    rw [List.forall_mem_cons, List.forall_mem_cons, ih]

/-! ## Characterizations of the differ's change sections -/

theorem type_of_mem_routerAddedChanges {A B : OSPFTopology} {now : Nat}
    {c : TopologyChange} (hc : c ∈ routerAddedChanges A B now) :
    c.type = .routerAdded := by
  obtain ⟨rb, _, hf⟩ := List.mem_filterMap.mp hc
  split at hf
  · exact absurd hf (by simp)
  · injection hf with hf
    rw [← hf]; rfl

theorem type_of_mem_routerRemovedChanges {A B : OSPFTopology} {now : Nat}
    {c : TopologyChange} (hc : c ∈ routerRemovedChanges A B now) :
    c.type = .routerRemoved := by
  obtain ⟨ra, _, hf⟩ := List.mem_filterMap.mp hc
  split at hf
  · exact absurd hf (by simp)
  · injection hf with hf
    rw [← hf]; rfl

theorem type_of_mem_linkAddedChanges {A B : OSPFTopology} {now : Nat}
    {c : TopologyChange} (hc : c ∈ linkAddedChanges A B now) :
    c.type = .linkAdded := by
  obtain ⟨kv, _, hf⟩ := List.mem_filterMap.mp hc
  split at hf
  · exact absurd hf (by simp)
  · injection hf with hf
    rw [← hf]; rfl

theorem type_of_mem_linkRemovedChanges {A B : OSPFTopology} {now : Nat}
    {c : TopologyChange} (hc : c ∈ linkRemovedChanges A B now) :
    c.type = .linkRemoved := by
  obtain ⟨kv, _, hf⟩ := List.mem_filterMap.mp hc
  split at hf
  · exact absurd hf (by simp)
  · injection hf with hf
    rw [← hf]; rfl

theorem type_of_mem_metricChangedChanges {A B : OSPFTopology} {now : Nat}
    {c : TopologyChange} (hc : c ∈ metricChangedChanges A B now) :
    c.type = .metricChanged := by
  obtain ⟨kv, _, hf⟩ := List.mem_filterMap.mp hc
  cases hg : jsMapGet (linkMapOf A) kv.1 with
  | none => rw [hg] at hf; exact absurd hf (by simp)
  | some oldLink =>
    rw [hg] at hf
    simp only at hf
    split at hf
    · injection hf with hf
      rw [← hf]; rfl
    · exact absurd hf (by simp)

theorem type_of_mem_areaChangedChanges {A B : OSPFTopology} {now : Nat}
    {c : TopologyChange} (hc : c ∈ areaChangedChanges A B now) :
    c.type = .areaChanged := by
  obtain ⟨r, _, hf⟩ := List.mem_filterMap.mp hc
  cases hg : jsMapGet (routerMapOf A) r.routerId with
  | none => rw [hg] at hf; exact absurd hf (by simp)
  | some oldRouter =>
    rw [hg] at hf
    simp only at hf
    split at hf
    · injection hf with hf
      rw [← hf]; rfl
    · exact absurd hf (by simp)

theorem mem_routerAddedChanges_iff (A B : OSPFTopology) (now : Nat)
    (r : String) :
    (∃ c ∈ routerAddedChanges A B now, c.routerId = some r) ↔
      (∃ rb ∈ B.routers, rb.routerId = r) ∧ r ∉ routerIdsOf A := by
  constructor
  · rintro ⟨c, hc, hcr⟩
    obtain ⟨rb, hrb, hf⟩ := List.mem_filterMap.mp hc
    split at hf
    case isTrue hg => exact absurd hf (by simp)
    case isFalse hg =>
      injection hf with hf
      rw [← hf] at hcr
      have hid : rb.routerId = r := by
        simpa [mkRouterAddedChange] using hcr
      refine ⟨⟨rb, hrb, hid⟩, ?_⟩
      rw [← hid]
      exact fun hmem => hg (List.elem_iff.mpr hmem)
  · rintro ⟨⟨rb, hrb, hid⟩, hnot⟩
    refine ⟨mkRouterAddedChange rb now, List.mem_filterMap.mpr ⟨rb, hrb, ?_⟩,
      by simp [mkRouterAddedChange, hid]⟩
    have hg : ((routerIdsOf A).contains rb.routerId) = false := by
      rw [hid]
      exact Bool.eq_false_iff.mpr (fun hcon => hnot (List.elem_iff.mp hcon))
    rw [hg]
    simp

theorem mem_routerRemovedChanges_iff (A B : OSPFTopology) (now : Nat)
    (r : String) :
    (∃ c ∈ routerRemovedChanges A B now, c.routerId = some r) ↔
      (∃ ra ∈ A.routers, ra.routerId = r) ∧ r ∉ routerIdsOf B := by
  constructor
  · rintro ⟨c, hc, hcr⟩
    obtain ⟨ra, hra, hf⟩ := List.mem_filterMap.mp hc
    split at hf
    case isTrue hg => exact absurd hf (by simp)
    case isFalse hg =>
      injection hf with hf
      rw [← hf] at hcr
      have hid : ra.routerId = r := by
        simpa [mkRouterRemovedChange] using hcr
      refine ⟨⟨ra, hra, hid⟩, ?_⟩
      rw [← hid]
      exact fun hmem => hg (List.elem_iff.mpr hmem)
  · rintro ⟨⟨ra, hra, hid⟩, hnot⟩
    refine ⟨mkRouterRemovedChange ra now, List.mem_filterMap.mpr ⟨ra, hra, ?_⟩,
      by simp [mkRouterRemovedChange, hid]⟩
    have hg : ((routerIdsOf B).contains ra.routerId) = false := by
      rw [hid]
      exact Bool.eq_false_iff.mpr (fun hcon => hnot (List.elem_iff.mp hcon))
    rw [hg]
    simp

theorem mem_linkAddedChanges_iff (A B : OSPFTopology) (now : Nat)
    (i : String) :
    (∃ c ∈ linkAddedChanges A B now, c.linkId = some i) ↔
      ∃ kv ∈ linkMapOf B, jsMapHas (linkMapOf A) kv.1 = false ∧
        kv.2.id = i := by
  constructor
  · rintro ⟨c, hc, hci⟩
    obtain ⟨kv, hkv, hf⟩ := List.mem_filterMap.mp hc
    split at hf
    case isTrue hg => exact absurd hf (by simp)
    case isFalse hg =>
      injection hf with hf
      rw [← hf] at hci
      exact ⟨kv, hkv, Bool.eq_false_iff.mpr hg,
        by simpa [mkLinkAddedChange] using hci⟩
  · rintro ⟨kv, hkv, hg, hid⟩
    exact ⟨mkLinkAddedChange kv.2 now,
      List.mem_filterMap.mpr ⟨kv, hkv, by simp [hg]⟩,
      by simp [mkLinkAddedChange, hid]⟩

theorem mem_linkRemovedChanges_iff (A B : OSPFTopology) (now : Nat)
    (i : String) :
    (∃ c ∈ linkRemovedChanges A B now, c.linkId = some i) ↔
      ∃ kv ∈ linkMapOf A, jsMapHas (linkMapOf B) kv.1 = false ∧
        kv.2.id = i := by
  constructor
  · rintro ⟨c, hc, hci⟩
    obtain ⟨kv, hkv, hf⟩ := List.mem_filterMap.mp hc
    split at hf
    case isTrue hg => exact absurd hf (by simp)
    case isFalse hg =>
      injection hf with hf
      rw [← hf] at hci
      exact ⟨kv, hkv, Bool.eq_false_iff.mpr hg,
        by simpa [mkLinkRemovedChange] using hci⟩
  · rintro ⟨kv, hkv, hg, hid⟩
    exact ⟨mkLinkRemovedChange kv.2 now,
      List.mem_filterMap.mpr ⟨kv, hkv, by simp [hg]⟩,
      by simp [mkLinkRemovedChange, hid]⟩

theorem mem_metricChangedChanges_iff (A B : OSPFTopology) (now : Nat)
    (a b : Nat) :
    (∃ c ∈ metricChangedChanges A B now,
        c.oldValue = some (.num a) ∧ c.newValue = some (.num b)) ↔
      ∃ kv ∈ linkMapOf B, ∃ la, jsMapGet (linkMapOf A) kv.1 = some la ∧
        la.cost = a ∧ kv.2.cost = b ∧ a ≠ b := by
  constructor
  · rintro ⟨c, hc, hco, hcn⟩
    obtain ⟨kv, hkv, hf⟩ := List.mem_filterMap.mp hc
    cases hg : jsMapGet (linkMapOf A) kv.1 with
    | none => rw [hg] at hf; exact absurd hf (by simp)
    | some oldLink =>
      rw [hg] at hf
      simp only at hf
      split at hf
      case isTrue hne =>
        injection hf with hf
        rw [← hf] at hco hcn
        have ha : oldLink.cost = a := by
          simpa [mkMetricChangedChange] using hco
        have hb : kv.2.cost = b := by
          simpa [mkMetricChangedChange] using hcn
        exact ⟨kv, hkv, oldLink, hg, ha, hb, by rw [← ha, ← hb]; exact hne⟩
      case isFalse => exact absurd hf (by simp)
  · rintro ⟨kv, hkv, la, hg, ha, hb, hab⟩
    refine ⟨mkMetricChangedChange la kv.2 now,
      List.mem_filterMap.mpr ⟨kv, hkv, ?_⟩,
      by simp [mkMetricChangedChange, ha],
      by simp [mkMetricChangedChange, hb]⟩
    rw [hg]
    simp only
    rw [if_pos (by rw [ha, hb]; exact hab)]

theorem mem_areaChangedChanges_iff (A B : OSPFTopology) (now : Nat)
    (r x y : String) :
    (∃ c ∈ areaChangedChanges A B now, c.routerId = some r ∧
        c.oldValue = some (.str x) ∧ c.newValue = some (.str y)) ↔
      ∃ rb ∈ B.routers, rb.routerId = r ∧ rb.area = y ∧
        ∃ ra, jsMapGet (routerMapOf A) r = some ra ∧ ra.area = x ∧
          x ≠ y := by
  constructor
  · rintro ⟨c, hc, hcr, hco, hcn⟩
    obtain ⟨rb, hrb, hf⟩ := List.mem_filterMap.mp hc
    cases hg : jsMapGet (routerMapOf A) rb.routerId with
    | none => rw [hg] at hf; exact absurd hf (by simp)
    | some oldRouter =>
      rw [hg] at hf
      simp only at hf
      split at hf
      case isTrue hne =>
        injection hf with hf
        rw [← hf] at hcr hco hcn
        have hid : rb.routerId = r := by
          simpa [mkAreaChangedChange] using hcr
        have hx : oldRouter.area = x := by
          simpa [mkAreaChangedChange] using hco
        have hy : rb.area = y := by
          simpa [mkAreaChangedChange] using hcn
        exact ⟨rb, hrb, hid, hy, oldRouter, by rw [← hid]; exact hg, hx,
          by rw [← hx, ← hy]; exact hne⟩
      case isFalse => exact absurd hf (by simp)
  · rintro ⟨rb, hrb, hid, hy, ra, hg, hx, hxy⟩
    refine ⟨mkAreaChangedChange ra rb now,
      List.mem_filterMap.mpr ⟨rb, hrb, ?_⟩,
      by simp [mkAreaChangedChange, hid],
      by simp [mkAreaChangedChange, hx],
      by simp [mkAreaChangedChange, hy]⟩
    rw [hid, hg]
    simp only
    rw [if_pos (by rw [hx, hy]; exact hxy)]

/-! ## Lifting the section characterizations to `diffTopologies` -/

theorem exists_mem_append_iff {α : Type} (l1 l2 : List α) (p : α → Prop) :
    (∃ c ∈ l1 ++ l2, p c) ↔ (∃ c ∈ l1, p c) ∨ ∃ c ∈ l2, p c := by
  constructor
  · rintro ⟨c, hc, hp⟩
    rcases List.mem_append.mp hc with h | h
    · exact Or.inl ⟨c, h, hp⟩
    · exact Or.inr ⟨c, h, hp⟩
  · rintro (⟨c, hc, hp⟩ | ⟨c, hc, hp⟩)
    · exact ⟨c, List.mem_append_left _ hc, hp⟩
    · exact ⟨c, List.mem_append_right _ hc, hp⟩

/-- A change of the full diff sits in exactly one of the six push
sections. -/
theorem mem_protoDiff_cases {A B : OSPFTopology} {now : Nat}
    {c : TopologyChange} (hc : c ∈ protoDiff A B now) :
    c ∈ routerAddedChanges A B now ∨ c ∈ routerRemovedChanges A B now ∨
    c ∈ linkAddedChanges A B now ∨ c ∈ linkRemovedChanges A B now ∨
    c ∈ metricChangedChanges A B now ∨ c ∈ areaChangedChanges A B now := by
  rw [protoDiff] at hc
  simp only [List.mem_append] at hc
  tauto

theorem routerAdded_subset_protoDiff {A B : OSPFTopology} {now : Nat}
    {c : TopologyChange} (hc : c ∈ routerAddedChanges A B now) :
    c ∈ protoDiff A B now := by
  rw [protoDiff]
  exact List.mem_append_left _ (List.mem_append_left _
    (List.mem_append_left _ (List.mem_append_left _
      (List.mem_append_left _ hc))))

theorem routerRemoved_subset_protoDiff {A B : OSPFTopology} {now : Nat}
    {c : TopologyChange} (hc : c ∈ routerRemovedChanges A B now) :
    c ∈ protoDiff A B now := by
  rw [protoDiff]
  exact List.mem_append_left _ (List.mem_append_left _
    (List.mem_append_left _ (List.mem_append_left _
      (List.mem_append_right _ hc))))

theorem linkAdded_subset_protoDiff {A B : OSPFTopology} {now : Nat}
    {c : TopologyChange} (hc : c ∈ linkAddedChanges A B now) :
    c ∈ protoDiff A B now := by
  rw [protoDiff]
  exact List.mem_append_left _ (List.mem_append_left _
    (List.mem_append_left _ (List.mem_append_right _ hc)))

theorem linkRemoved_subset_protoDiff {A B : OSPFTopology} {now : Nat}
    {c : TopologyChange} (hc : c ∈ linkRemovedChanges A B now) :
    c ∈ protoDiff A B now := by
  rw [protoDiff]
  exact List.mem_append_left _ (List.mem_append_left _
    (List.mem_append_right _ hc))

theorem metricChanged_subset_protoDiff {A B : OSPFTopology} {now : Nat}
    {c : TopologyChange} (hc : c ∈ metricChangedChanges A B now) :
    c ∈ protoDiff A B now := by
  rw [protoDiff]
  exact List.mem_append_left _ (List.mem_append_right _ hc)

theorem areaChanged_subset_protoDiff {A B : OSPFTopology} {now : Nat}
    {c : TopologyChange} (hc : c ∈ areaChangedChanges A B now) :
    c ∈ protoDiff A B now := by
  rw [protoDiff]
  exact List.mem_append_right _ hc

theorem mem_diff_routerAdded_iff (A B : OSPFTopology) (now c0 : Nat)
    (r : String) :
    (∃ c ∈ (diffTopologies A B now c0).1,
        c.type = .routerAdded ∧ c.routerId = some r) ↔
      (∃ rb ∈ B.routers, rb.routerId = r) ∧ r ∉ routerIdsOf A := by
  rw [diffTopologies,
    exists_mem_attachIds_iff (protoDiff A B now) now c0
      (fun ty rid _ _ _ _ _ => ty = .routerAdded ∧ rid = some r)]
  constructor
  · rintro ⟨c, hc, hty, hcr⟩
    rcases mem_protoDiff_cases hc with h | h | h | h | h | h
    · exact (mem_routerAddedChanges_iff A B now r).mp ⟨c, h, hcr⟩
    · rw [type_of_mem_routerRemovedChanges h] at hty; exact absurd hty (by simp)
    · rw [type_of_mem_linkAddedChanges h] at hty; exact absurd hty (by simp)
    · rw [type_of_mem_linkRemovedChanges h] at hty; exact absurd hty (by simp)
    · rw [type_of_mem_metricChangedChanges h] at hty; exact absurd hty (by simp)
    · rw [type_of_mem_areaChangedChanges h] at hty; exact absurd hty (by simp)
  · intro h
    obtain ⟨c, hc, hcr⟩ := (mem_routerAddedChanges_iff A B now r).mpr h
    exact ⟨c, routerAdded_subset_protoDiff hc,
      type_of_mem_routerAddedChanges hc, hcr⟩

theorem mem_diff_routerRemoved_iff (A B : OSPFTopology) (now c0 : Nat)
    (r : String) :
    (∃ c ∈ (diffTopologies A B now c0).1,
        c.type = .routerRemoved ∧ c.routerId = some r) ↔
      (∃ ra ∈ A.routers, ra.routerId = r) ∧ r ∉ routerIdsOf B := by
  rw [diffTopologies,
    exists_mem_attachIds_iff (protoDiff A B now) now c0
      (fun ty rid _ _ _ _ _ => ty = .routerRemoved ∧ rid = some r)]
  constructor
  · rintro ⟨c, hc, hty, hcr⟩
    rcases mem_protoDiff_cases hc with h | h | h | h | h | h
    · rw [type_of_mem_routerAddedChanges h] at hty; exact absurd hty (by simp)
    · exact (mem_routerRemovedChanges_iff A B now r).mp ⟨c, h, hcr⟩
    · rw [type_of_mem_linkAddedChanges h] at hty; exact absurd hty (by simp)
    · rw [type_of_mem_linkRemovedChanges h] at hty; exact absurd hty (by simp)
    · rw [type_of_mem_metricChangedChanges h] at hty; exact absurd hty (by simp)
    · rw [type_of_mem_areaChangedChanges h] at hty; exact absurd hty (by simp)
  · intro h
    obtain ⟨c, hc, hcr⟩ := (mem_routerRemovedChanges_iff A B now r).mpr h
    exact ⟨c, routerRemoved_subset_protoDiff hc,
      type_of_mem_routerRemovedChanges hc, hcr⟩

theorem mem_diff_linkAdded_iff (A B : OSPFTopology) (now c0 : Nat)
    (i : String) :
    (∃ c ∈ (diffTopologies A B now c0).1,
        c.type = .linkAdded ∧ c.linkId = some i) ↔
      ∃ kv ∈ linkMapOf B, jsMapHas (linkMapOf A) kv.1 = false ∧
        kv.2.id = i := by
  rw [diffTopologies,
    exists_mem_attachIds_iff (protoDiff A B now) now c0
      (fun ty _ lid _ _ _ _ => ty = .linkAdded ∧ lid = some i)]
  constructor
  · rintro ⟨c, hc, hty, hci⟩
    rcases mem_protoDiff_cases hc with h | h | h | h | h | h
    · rw [type_of_mem_routerAddedChanges h] at hty; exact absurd hty (by simp)
    · rw [type_of_mem_routerRemovedChanges h] at hty; exact absurd hty (by simp)
    · exact (mem_linkAddedChanges_iff A B now i).mp ⟨c, h, hci⟩
    · rw [type_of_mem_linkRemovedChanges h] at hty; exact absurd hty (by simp)
    · rw [type_of_mem_metricChangedChanges h] at hty; exact absurd hty (by simp)
    · rw [type_of_mem_areaChangedChanges h] at hty; exact absurd hty (by simp)
  · intro h
    obtain ⟨c, hc, hci⟩ := (mem_linkAddedChanges_iff A B now i).mpr h
    exact ⟨c, linkAdded_subset_protoDiff hc,
      type_of_mem_linkAddedChanges hc, hci⟩

theorem mem_diff_linkRemoved_iff (A B : OSPFTopology) (now c0 : Nat)
    (i : String) :
    (∃ c ∈ (diffTopologies A B now c0).1,
        c.type = .linkRemoved ∧ c.linkId = some i) ↔
      ∃ kv ∈ linkMapOf A, jsMapHas (linkMapOf B) kv.1 = false ∧
        kv.2.id = i := by
  rw [diffTopologies,
    exists_mem_attachIds_iff (protoDiff A B now) now c0
      (fun ty _ lid _ _ _ _ => ty = .linkRemoved ∧ lid = some i)]
  constructor
  · rintro ⟨c, hc, hty, hci⟩
    rcases mem_protoDiff_cases hc with h | h | h | h | h | h
    · rw [type_of_mem_routerAddedChanges h] at hty; exact absurd hty (by simp)
    · rw [type_of_mem_routerRemovedChanges h] at hty; exact absurd hty (by simp)
    · rw [type_of_mem_linkAddedChanges h] at hty; exact absurd hty (by simp)
    · exact (mem_linkRemovedChanges_iff A B now i).mp ⟨c, h, hci⟩
    · rw [type_of_mem_metricChangedChanges h] at hty; exact absurd hty (by simp)
    · rw [type_of_mem_areaChangedChanges h] at hty; exact absurd hty (by simp)
  · intro h
    obtain ⟨c, hc, hci⟩ := (mem_linkRemovedChanges_iff A B now i).mpr h
    exact ⟨c, linkRemoved_subset_protoDiff hc,
      type_of_mem_linkRemovedChanges hc, hci⟩

theorem mem_diff_metricChanged_iff (A B : OSPFTopology) (now c0 : Nat)
    (a b : Nat) :
    (∃ c ∈ (diffTopologies A B now c0).1, c.type = .metricChanged ∧
        c.oldValue = some (.num a) ∧ c.newValue = some (.num b)) ↔
      ∃ kv ∈ linkMapOf B, ∃ la, jsMapGet (linkMapOf A) kv.1 = some la ∧
        la.cost = a ∧ kv.2.cost = b ∧ a ≠ b := by
  rw [diffTopologies,
    exists_mem_attachIds_iff (protoDiff A B now) now c0
      (fun ty _ _ _ ov nv _ => ty = .metricChanged ∧
        ov = some (.num a) ∧ nv = some (.num b))]
  constructor
  · rintro ⟨c, hc, hty, hv⟩
    rcases mem_protoDiff_cases hc with h | h | h | h | h | h
    · rw [type_of_mem_routerAddedChanges h] at hty; exact absurd hty (by simp)
    · rw [type_of_mem_routerRemovedChanges h] at hty; exact absurd hty (by simp)
    · rw [type_of_mem_linkAddedChanges h] at hty; exact absurd hty (by simp)
    · rw [type_of_mem_linkRemovedChanges h] at hty; exact absurd hty (by simp)
    · exact (mem_metricChangedChanges_iff A B now a b).mp ⟨c, h, hv⟩
    · rw [type_of_mem_areaChangedChanges h] at hty; exact absurd hty (by simp)
  · intro h
    obtain ⟨c, hc, hv⟩ := (mem_metricChangedChanges_iff A B now a b).mpr h
    exact ⟨c, metricChanged_subset_protoDiff hc,
      type_of_mem_metricChangedChanges hc, hv⟩

theorem mem_diff_areaChanged_iff (A B : OSPFTopology) (now c0 : Nat)
    (r x y : String) :
    (∃ c ∈ (diffTopologies A B now c0).1, c.type = .areaChanged ∧
        c.routerId = some r ∧ c.oldValue = some (.str x) ∧
        c.newValue = some (.str y)) ↔
      ∃ rb ∈ B.routers, rb.routerId = r ∧ rb.area = y ∧
        ∃ ra, jsMapGet (routerMapOf A) r = some ra ∧ ra.area = x ∧
          x ≠ y := by
  rw [diffTopologies,
    exists_mem_attachIds_iff (protoDiff A B now) now c0
      (fun ty rid _ _ ov nv _ => ty = .areaChanged ∧ rid = some r ∧
        ov = some (.str x) ∧ nv = some (.str y))]
  constructor
  · rintro ⟨c, hc, hty, hv⟩
    rcases mem_protoDiff_cases hc with h | h | h | h | h | h
    · rw [type_of_mem_routerAddedChanges h] at hty; exact absurd hty (by simp)
    · rw [type_of_mem_routerRemovedChanges h] at hty; exact absurd hty (by simp)
    · rw [type_of_mem_linkAddedChanges h] at hty; exact absurd hty (by simp)
    · rw [type_of_mem_linkRemovedChanges h] at hty; exact absurd hty (by simp)
    · rw [type_of_mem_metricChangedChanges h] at hty; exact absurd hty (by simp)
    · exact (mem_areaChangedChanges_iff A B now r x y).mp ⟨c, h, hv⟩
  · intro h
    obtain ⟨c, hc, hv⟩ := (mem_areaChangedChanges_iff A B now r x y).mpr h
    exact ⟨c, areaChanged_subset_protoDiff hc,
      type_of_mem_areaChangedChanges hc, hv⟩

/-! ## Bridges between the two diff directions -/

theorem jsMapHas_false_iff {α : Type} (m : List (String × α)) (k : String) :
    jsMapHas m k = false ↔ jsMapGet m k = none := by
  cases h : jsMapGet m k <;> simp [jsMapHas, h]

theorem keys_nodup_linkMapOf (T : OSPFTopology) :
    ((linkMapOf T).map Prod.fst).Nodup := by
  rw [linkMapOf]; exact keys_nodup_mkJsMap _

theorem mem_linkMapOf_iff_get (T : OSPFTopology) (k : String)
    (l : OSPFLink) :
    (k, l) ∈ linkMapOf T ↔ jsMapGet (linkMapOf T) k = some l := by
  constructor
  · exact jsMapGet_eq_some_of_mem (keys_nodup_linkMapOf T)
  · exact mem_of_jsMapGet_eq_some

theorem get_routerMapOf_nodup_iff (T : OSPFTopology)
    (hT : (T.routers.map (fun rr => rr.routerId)).Nodup) (r : String)
    (q : OSPFRouter) :
    jsMapGet (routerMapOf T) r = some q ↔
      q ∈ T.routers ∧ q.routerId = r := by
  have hkeys : ((T.routers.map (fun rr => (rr.routerId, rr))).map
      Prod.fst).Nodup := by
    rw [List.map_map]
    simpa [Function.comp] using hT
  rw [routerMapOf, jsMapGet_mkJsMap_nodup_iff hkeys]
  constructor
  · intro h
    obtain ⟨w, hw, hpair⟩ := List.mem_map.mp h
    rw [Prod.mk.injEq] at hpair
    obtain ⟨h1, h2⟩ := hpair
    subst h2
    exact ⟨hw, h1⟩
  · rintro ⟨hq, hr⟩
    exact List.mem_map.mpr ⟨q, hq, by rw [hr]⟩

/-- The two directions agree on the metric-changed payload with old and
new swapped: both are witnessed by the same pair of map entries. -/
theorem metric_char_swap (A B : OSPFTopology) (a b : Nat) :
    (∃ kv ∈ linkMapOf B, ∃ la, jsMapGet (linkMapOf A) kv.1 = some la ∧
        la.cost = a ∧ kv.2.cost = b ∧ a ≠ b) ↔
      ∃ kv ∈ linkMapOf A, ∃ lb, jsMapGet (linkMapOf B) kv.1 = some lb ∧
        lb.cost = b ∧ kv.2.cost = a ∧ b ≠ a := by
  constructor
  · rintro ⟨kv, hkv, la, hga, ha, hb, hab⟩
    refine ⟨(kv.1, la), mem_of_jsMapGet_eq_some hga, kv.2, ?_, hb, ha,
      hab.symm⟩
    exact (mem_linkMapOf_iff_get B kv.1 kv.2).mp (by
      obtain ⟨k1, v1⟩ := kv
      exact hkv)
  · rintro ⟨kv, hkv, lb, hgb, hb, ha, hba⟩
    refine ⟨(kv.1, lb), mem_of_jsMapGet_eq_some hgb, kv.2, ?_, ha, hb,
      hba.symm⟩
    exact (mem_linkMapOf_iff_get A kv.1 kv.2).mp (by
      obtain ⟨k1, v1⟩ := kv
      exact hkv)

/-- The two directions agree on the area-changed payload with old and
new swapped, provided router ids are duplicate-free in each snapshot. -/
theorem area_char_swap (A B : OSPFTopology)
    (hA : (A.routers.map (fun rr => rr.routerId)).Nodup)
    (hB : (B.routers.map (fun rr => rr.routerId)).Nodup)
    (r x y : String) :
    (∃ rb ∈ B.routers, rb.routerId = r ∧ rb.area = y ∧
        ∃ ra, jsMapGet (routerMapOf A) r = some ra ∧ ra.area = x ∧
          x ≠ y) ↔
      ∃ ra ∈ A.routers, ra.routerId = r ∧ ra.area = x ∧
        ∃ rb, jsMapGet (routerMapOf B) r = some rb ∧ rb.area = y ∧
          y ≠ x := by
  constructor
  · rintro ⟨rb, hrb, hrbid, hy, ra, hga, hx, hxy⟩
    obtain ⟨hra, hraid⟩ := (get_routerMapOf_nodup_iff A hA r ra).mp hga
    exact ⟨ra, hra, hraid, hx, rb,
      (get_routerMapOf_nodup_iff B hB r rb).mpr ⟨hrb, hrbid⟩, hy, hxy.symm⟩
  · rintro ⟨ra, hra, hraid, hx, rb, hgb, hy, hyx⟩
    obtain ⟨hrb, hrbid⟩ := (get_routerMapOf_nodup_iff B hB r rb).mp hgb
    exact ⟨rb, hrb, hrbid, hy, ra,
      (get_routerMapOf_nodup_iff A hA r ra).mpr ⟨hra, hraid⟩, hx, hyx.symm⟩

/-! ## Concrete fixtures for witnesses and counterexamples -/

/-- A minimal router record, as the differ scenarios need it. -/
def sampleRouter (rid area : String) : OSPFRouter :=
  { id := rid, routerId := rid, role := .internal, area := area,
    lsaTypes := [], neighbors := [], networks := [],
    sequenceNumber := none, age := none, checksum := none }

/-- A minimal point-to-point link record. -/
def sampleLink (i s t : String) (c : Nat) : OSPFLink :=
  { id := i, source := s, target := t, cost := c, linkType := .p2p,
    interfaceInfo := none, area := "0" }

/-- Snapshot A of the removal scenario: routers 1.1.1.1 and 2.2.2.2
with one p2p link between them. -/
def sampleTopoA : OSPFTopology :=
  { routers := [sampleRouter "1.1.1.1" "0", sampleRouter "2.2.2.2" "0"],
    networks := [], links := [sampleLink "l1" "1.1.1.1" "2.2.2.2" 10],
    areas := ["0"] }

/-- Snapshot B of the removal scenario: router 2.2.2.2 and its link are
gone. -/
def sampleTopoB : OSPFTopology :=
  { routers := [sampleRouter "1.1.1.1" "0"], networks := [], links := [],
    areas := ["0"] }

/-- One router 9.9.9.9 in area 1. -/
def dupTopoA : OSPFTopology :=
  { routers := [sampleRouter "9.9.9.9" "1"], networks := [], links := [],
    areas := [] }

/-- The same router id listed twice, in areas 2 and 3 (a topology value
with a duplicated router id). -/
def dupTopoB : OSPFTopology :=
  { routers := [sampleRouter "9.9.9.9" "2", sampleRouter "9.9.9.9" "3"],
    networks := [], links := [], areas := [] }

/-! ## C3 - the differ is inverse under direction swap -/

/-- C3 (counterexample to the claim as stated): with a duplicated
router id the area-changed entries do not swap.  `diff(dupTopoA,
dupTopoB)` contains an area-changed entry 1 -> 2 for 9.9.9.9, but
`diff(dupTopoB, dupTopoA)` contains no area-changed entry 2 -> 1 (its
only entry is 3 -> 1, because the lookup map keeps only the last
duplicate). -/
theorem diffTopologies_inverse_counterexample :
    (∃ c ∈ (diffTopologies dupTopoA dupTopoB 0 0).1,
        c.type = .areaChanged ∧ c.routerId = some "9.9.9.9" ∧
        c.oldValue = some (.str "1") ∧ c.newValue = some (.str "2")) ∧
    ¬ (∃ c ∈ (diffTopologies dupTopoB dupTopoA 0 0).1,
        c.type = .areaChanged ∧ c.routerId = some "9.9.9.9" ∧
        c.oldValue = some (.str "2") ∧ c.newValue = some (.str "1")) := by
  decide

/-- C3 (amended: router ids duplicate-free in each snapshot):
`diffTopologies` in the two directions is inverse - router-added
matches router-removed for the same id, link-added matches link-removed
for the same link (hence the same sorted endpoint pair), and
metric-changed / area-changed entries appear in both directions with
oldValue and newValue swapped. -/
theorem diffTopologies_inverse (A B : OSPFTopology) (now1 now2 c1 c2 : Nat)
    (hA : (A.routers.map (fun rr => rr.routerId)).Nodup)
    (hB : (B.routers.map (fun rr => rr.routerId)).Nodup) :
    (∀ r, (∃ c ∈ (diffTopologies A B now1 c1).1,
        c.type = .routerAdded ∧ c.routerId = some r) ↔
      (∃ c ∈ (diffTopologies B A now2 c2).1,
        c.type = .routerRemoved ∧ c.routerId = some r)) ∧
    (∀ i, (∃ c ∈ (diffTopologies A B now1 c1).1,
        c.type = .linkAdded ∧ c.linkId = some i) ↔
      (∃ c ∈ (diffTopologies B A now2 c2).1,
        c.type = .linkRemoved ∧ c.linkId = some i)) ∧
    (∀ a b, (∃ c ∈ (diffTopologies A B now1 c1).1,
        c.type = .metricChanged ∧ c.oldValue = some (.num a) ∧
        c.newValue = some (.num b)) ↔
      (∃ c ∈ (diffTopologies B A now2 c2).1,
        c.type = .metricChanged ∧ c.oldValue = some (.num b) ∧
        c.newValue = some (.num a))) ∧
    (∀ r x y, (∃ c ∈ (diffTopologies A B now1 c1).1,
        c.type = .areaChanged ∧ c.routerId = some r ∧
        c.oldValue = some (.str x) ∧ c.newValue = some (.str y)) ↔
      (∃ c ∈ (diffTopologies B A now2 c2).1,
        c.type = .areaChanged ∧ c.routerId = some r ∧
        c.oldValue = some (.str y) ∧ c.newValue = some (.str x))) := by
  refine ⟨fun r => ?_, fun i => ?_, fun a b => ?_, fun r x y => ?_⟩
  · rw [mem_diff_routerAdded_iff, mem_diff_routerRemoved_iff]
  · rw [mem_diff_linkAdded_iff, mem_diff_linkRemoved_iff]
  · rw [mem_diff_metricChanged_iff, mem_diff_metricChanged_iff]
    exact metric_char_swap A B a b
  · rw [mem_diff_areaChanged_iff, mem_diff_areaChanged_iff]
    exact area_char_swap A B hA hB r x y

/-- Witness for C3's amended theorem: the removal scenario topologies
have duplicate-free router ids, and instantiating the theorem there
equates the router-removed entry for 2.2.2.2 in one direction with the
router-added entry in the other. -/
theorem diffTopologies_inverse_witness :
    ((sampleTopoB.routers.map (fun rr => rr.routerId)).Nodup ∧
     (sampleTopoA.routers.map (fun rr => rr.routerId)).Nodup) ∧
    ((∃ c ∈ (diffTopologies sampleTopoB sampleTopoA 5 7).1,
        c.type = .routerAdded ∧ c.routerId = some "2.2.2.2") ↔
      (∃ c ∈ (diffTopologies sampleTopoA sampleTopoB 0 0).1,
        c.type = .routerRemoved ∧ c.routerId = some "2.2.2.2")) :=
  ⟨⟨by decide, by decide⟩,
    (diffTopologies_inverse sampleTopoB sampleTopoA 5 0 7 0
      (by decide) (by decide)).1 "2.2.2.2"⟩

/-! ## C1 - auto-fit degenerate cases -/

theorem foldl_idem_proj (g : ℚ → ℚ → ℚ) (hg : ∀ q, g q q = q)
    (f : GraphNode → ℚ) :
    ∀ (l : List GraphNode) (a : ℚ), (∀ n ∈ l, f n = a) →
      l.foldl (fun m n => g m (f n)) a = a := by
  intro l
  induction l with
  | nil => intro a _; rfl
  | cons n rest ih =>
    intro a h
    rw [List.foldl_cons, h n (by simp), hg]
    exact ih a (fun m hm => h m (by simp [hm]))

/-- `computeAutoFit` on a non-empty list of coincident points: the
bounding box is degenerate, padding makes the content box 160 x 160
(non-zero, so the divisions are by 160, never by zero), and the result
is the clamped-zoom transform centering the common point. -/
theorem computeAutoFit_coincident (nodes : List GraphNode)
    (vw vh px0 py0 : ℚ) (hne : nodes ≠ [])
    (hall : ∀ n ∈ nodes, n.x = px0 ∧ n.y = py0) :
    computeAutoFit nodes vw vh =
      { zoom := max (1 / 20) (min (min (vw / 160) (vh / 160)) (3 / 2)),
        panX := vw / 2 - px0 * min (min (vw / 160) (vh / 160)) (3 / 2),
        panY := vh / 2 - py0 * min (min (vw / 160) (vh / 160)) (3 / 2) } := by
  cases nodes with
  | nil => exact absurd rfl hne
  | cons n0 rest =>
    have hx0 : n0.x = px0 := (hall n0 (by simp)).1
    have hy0 : n0.y = py0 := (hall n0 (by simp)).2
    have hxr : ∀ n ∈ rest, n.x = px0 :=
      fun n hn => (hall n (by simp [hn])).1
    have hyr : ∀ n ∈ rest, n.y = py0 :=
      fun n hn => (hall n (by simp [hn])).2
    have hminx : rest.foldl (fun m n => min m n.x) n0.x = px0 := by
      rw [hx0]
      exact foldl_idem_proj min (fun q => min_self q) (fun n => n.x)
        rest px0 hxr
    have hminy : rest.foldl (fun m n => min m n.y) n0.y = py0 := by
      rw [hy0]
      exact foldl_idem_proj min (fun q => min_self q) (fun n => n.y)
        rest py0 hyr
    have hmaxx : rest.foldl (fun m n => max m n.x) n0.x = px0 := by
      rw [hx0]
      exact foldl_idem_proj max (fun q => max_self q) (fun n => n.x)
        rest px0 hxr
    have hmaxy : rest.foldl (fun m n => max m n.y) n0.y = py0 := by
      rw [hy0]
      exact foldl_idem_proj max (fun q => max_self q) (fun n => n.y)
        rest py0 hyr
    simp only [computeAutoFit, hminx, hminy, hmaxx, hmaxy]
    have h160x : px0 - px0 + (80 : ℚ) * 2 = 160 := by ring
    have h160y : py0 - py0 + (80 : ℚ) * 2 = 160 := by ring
    rw [h160x, h160y]
    rw [if_neg (by norm_num)]
    have hc : (px0 + px0) / 2 = px0 := by ring
    have hcy : (py0 + py0) / 2 = py0 := by ring
    rw [hc, hcy]

/-- A single router node at the origin. -/
def originNode : GraphNode :=
  { id := "n1", type := .router, label := "n1", role := some .internal,
    area := "0", x := 0, y := 0, data := .inl (sampleRouter "n1" "0") }

/-- C1 (counterexample to the claim as stated): a single-node list does
not get the neutral transform - padding makes the content box 160 x 160,
so on an 800 x 600 viewport the zoom is 1.5 (capped) and the pan
centers the point at (400, 300). -/
theorem computeAutoFit_singleton_not_neutral :
    computeAutoFit [originNode] 800 600 ≠
      { zoom := 1, panX := 0, panY := 0 } := by
  have h : computeAutoFit [originNode] 800 600 =
      { zoom := 3 / 2, panX := 400, panY := 300 } := by
    rw [computeAutoFit_coincident [originNode] 800 600 0 0 (by simp)
      (by
        intro n hn
        rw [List.mem_singleton] at hn
        subst hn
        exact ⟨rfl, rfl⟩)]
    have hmin : min (min ((800 : ℚ) / 160) (600 / 160)) (3 / 2) = 3 / 2 := by
      rw [min_def, min_def]
      norm_num
    rw [hmin]
    have hmax : max ((1 : ℚ) / 20) (3 / 2) = 3 / 2 := by
      rw [max_def]
      norm_num
    rw [hmax]
    norm_num
  rw [h]
  intro heq
  have hz := congrArg AutoFitResult.zoom heq
  norm_num at hz

/-- C1 (amended): `computeAutoFit` returns the neutral transform for an
empty node list; for a non-empty list whose positions all coincide the
bounding box is degenerate but the padding makes the content box
160 x 160 (non-zero, so no division by zero occurs), and the result is
the finite transform given by the clamped zoom min(vw/160, vh/160, 1.5)
and the pan that centers the common point - not, in general, the
neutral transform. -/
theorem computeAutoFit_degenerate (nodes : List GraphNode)
    (vw vh px0 py0 : ℚ) :
    computeAutoFit [] vw vh = { zoom := 1, panX := 0, panY := 0 } ∧
    (nodes ≠ [] → (∀ n ∈ nodes, n.x = px0 ∧ n.y = py0) →
      computeAutoFit nodes vw vh =
        { zoom := max (1 / 20) (min (min (vw / 160) (vh / 160)) (3 / 2)),
          panX := vw / 2 - px0 * min (min (vw / 160) (vh / 160)) (3 / 2),
          panY := vh / 2 - py0 * min (min (vw / 160) (vh / 160)) (3 / 2) }) :=
  ⟨rfl, fun hne hall => computeAutoFit_coincident nodes vw vh px0 py0 hne hall⟩

/-- Witness for C1's amended theorem at a concrete single node and
viewport. -/
theorem computeAutoFit_degenerate_witness :
    (([originNode] : List GraphNode) ≠ [] ∧
      ∀ n ∈ [originNode], n.x = 0 ∧ n.y = 0) ∧
    computeAutoFit [originNode] 800 600 =
      { zoom := max (1 / 20) (min (min (800 / 160) (600 / 160)) (3 / 2)),
        panX := 800 / 2 - 0 * min (min (800 / 160) (600 / 160)) (3 / 2),
        panY := 600 / 2 - 0 * min (min (800 / 160) (600 / 160)) (3 / 2) } :=
  ⟨⟨by simp,
    by
      intro n hn
      rw [List.mem_singleton] at hn
      subst hn
      exact ⟨rfl, rfl⟩⟩,
    (computeAutoFit_degenerate [originNode] 800 600 0 0).2 (by simp)
      (by
        intro n hn
        rw [List.mem_singleton] at hn
        subst hn
        exact ⟨rfl, rfl⟩)⟩

/-! ## C4 - concrete two-router point-to-point parse -/

/-- LSA text in which routers 1.1.1.1 and 2.2.2.2 each advertise a
point-to-point link to the other with cost 10 in area 0. -/
def sampleP2PInput : String :=
  "                Router Link States (Area 0)\n" ++
  "\n" ++
  "  LS age: 100\n" ++
  "  LS Type: Router Links\n" ++
  "  Link State ID: 1.1.1.1\n" ++
  "  Advertising Router: 1.1.1.1\n" ++
  "  LS Seq Number: 80000001\n" ++
  "  Checksum: 0x1234\n" ++
  "  Number of Links: 1\n" ++
  "\n" ++
  "    Link connected to: another Router (point-to-point)\n" ++
  "     (Link ID) Neighboring Router ID: 2.2.2.2\n" ++
  "     (Link Data) Router Interface address: 10.0.0.1\n" ++
  "       TOS 0 Metrics: 10\n" ++
  "\n" ++
  "  LS age: 101\n" ++
  "  LS Type: Router Links\n" ++
  "  Link State ID: 2.2.2.2\n" ++
  "  Advertising Router: 2.2.2.2\n" ++
  "  LS Seq Number: 80000001\n" ++
  "  Checksum: 0x5678\n" ++
  "  Number of Links: 1\n" ++
  "\n" ++
  "    Link connected to: another Router (point-to-point)\n" ++
  "     (Link ID) Neighboring Router ID: 1.1.1.1\n" ++
  "     (Link Data) Router Interface address: 10.0.0.2\n" ++
  "       TOS 0 Metrics: 10\n"

set_option maxRecDepth 10000 in
/-- C4: the two-router point-to-point scenario parses to exactly 2
routers, 0 networks, and exactly 1 link of cost 10, kind
point-to-point, area "0" - the second router's mention of the same
pair is suppressed by the seen-pairs set. -/
theorem parse_two_router_p2p :
    (parseOSPFData sampleP2PInput).routers.length = 2 ∧
    (parseOSPFData sampleP2PInput).networks = [] ∧
    ((parseOSPFData sampleP2PInput).links.map
      (fun l => (l.cost, l.linkType, l.area))) = [(10, .p2p, "0")] := by
  decide

/-! ## C9 - concrete Network-LSA transit parse -/

/-- LSA text with a Network LSA for 10.0.123.2 listing attached routers
1.1.1.1, 2.2.2.2 and 3.3.3.3, where each attached router also appears
in its own Router LSA block (advertising a transit link to the same
network). -/
def sampleNetworkInput : String :=
  "                Router Link States (Area 0)\n" ++
  "\n" ++
  "  LS age: 50\n" ++
  "  LS Type: Router Links\n" ++
  "  Link State ID: 1.1.1.1\n" ++
  "  Number of Links: 1\n" ++
  "    Link connected to: a Transit Network\n" ++
  "     (Link ID) Designated Router address: 10.0.123.2\n" ++
  "     (Link Data) Router Interface address: 10.0.123.1\n" ++
  "       TOS 0 Metrics: 1\n" ++
  "\n" ++
  "  LS age: 51\n" ++
  "  LS Type: Router Links\n" ++
  "  Link State ID: 2.2.2.2\n" ++
  "  Number of Links: 1\n" ++
  "    Link connected to: a Transit Network\n" ++
  "     (Link ID) Designated Router address: 10.0.123.2\n" ++
  "     (Link Data) Router Interface address: 10.0.123.2\n" ++
  "       TOS 0 Metrics: 1\n" ++
  "\n" ++
  "  LS age: 52\n" ++
  "  LS Type: Router Links\n" ++
  "  Link State ID: 3.3.3.3\n" ++
  "  Number of Links: 1\n" ++
  "    Link connected to: a Transit Network\n" ++
  "     (Link ID) Designated Router address: 10.0.123.2\n" ++
  "     (Link Data) Router Interface address: 10.0.123.3\n" ++
  "       TOS 0 Metrics: 1\n" ++
  "\n" ++
  "                Net Link States (Area 0)\n" ++
  "\n" ++
  "  LS age: 60\n" ++
  "  LS Type: Network Links\n" ++
  "  Link State ID: 10.0.123.2\n" ++
  "  Advertising Router: 2.2.2.2\n" ++
  "  Network Mask: /24\n" ++
  "        Attached Router: 1.1.1.1\n" ++
  "        Attached Router: 2.2.2.2\n" ++
  "        Attached Router: 3.3.3.3\n"

set_option maxRecDepth 10000 in
/-- C9: the Network-LSA scenario produces exactly one Network entity
(hence exactly one network-type graph node via `buildGraph`) and
exactly three links, all of kind transit, one per attached router -
even though every attached router also appears in its own Router LSA
block mentioning the same network. -/
theorem parse_network_lsa_transit :
    (parseOSPFData sampleNetworkInput).networks.length = 1 ∧
    ((parseOSPFData sampleNetworkInput).links.map
      (fun l => (l.linkType, l.source, l.target))) =
      [(.transit, "10.0.123.2", "1.1.1.1"),
       (.transit, "10.0.123.2", "2.2.2.2"),
       (.transit, "10.0.123.2", "3.3.3.3")] ∧
    ((buildGraph (parseOSPFData sampleNetworkInput)).1.filter
      (fun n => n.type = NodeType.network)).length = 1 := by
  decide

/-! ## C5 - the parser's error-handling policy -/

/-- Every line of every block produced by `splitIntoBlocks` comes from
the input lines or the initial accumulator. -/
theorem mem_of_mem_splitBlocksGo (p : String → Bool) :
    ∀ (lines current b : List String) (l : String),
      b ∈ splitBlocksGo p lines current → l ∈ b →
        l ∈ lines ∨ l ∈ current := by
  intro lines
  induction lines with
  | nil =>
    intro current b l hb hl
    simp only [splitBlocksGo] at hb
    split at hb
    · simp at hb
    · rw [List.mem_singleton] at hb
      subst hb
      exact Or.inr hl
  | cons line rest ih =>
    intro current b l hb hl
    simp only [splitBlocksGo] at hb
    split at hb
    · rcases List.mem_append.mp hb with h1 | h1
      · have hbc : b = current := by
          revert h1
          split
          · intro h; simp at h
          · intro h; exact (List.mem_singleton.mp h)
        subst hbc
        exact Or.inr hl
      · rcases List.mem_cons.mp h1 with h2 | h2
        · subst h2
          rw [List.mem_singleton] at hl
          subst hl
          exact Or.inl (by simp)
        · rcases ih [] b l h2 hl with h3 | h3
          · exact Or.inl (List.mem_cons_of_mem _ h3)
          · simp at h3
    · split at hb
      · rcases List.mem_append.mp hb with h1 | h1
        · have hbc : b = current := by
            revert h1
            split
            · intro h; simp at h
            · intro h; exact (List.mem_singleton.mp h)
          subst hbc
          exact Or.inr hl
        · rcases ih [line] b l h1 hl with h3 | h3
          · exact Or.inl (List.mem_cons_of_mem _ h3)
          · rw [List.mem_singleton] at h3
            subst h3
            exact Or.inl (by simp)
      · rcases ih (current ++ [line]) b l hb hl with h3 | h3
        · exact Or.inl (List.mem_cons_of_mem _ h3)
        · rcases List.mem_append.mp h3 with h4 | h4
          · exact Or.inr h4
          · rw [List.mem_singleton] at h4
            subst h4
            exact Or.inl (by simp)

/-- A block none of whose lines passes the Router-Links test is skipped
by `parseRouterBlock`. -/
theorem parseRouterBlock_skip {block : List String} {area : String}
    (h : block.any isRouterLinksLine = false) :
    parseRouterBlock block area = none := by
  rw [parseRouterBlock, h]
  rfl

/-- A block none of whose lines passes the Network-Links test is
skipped by `parseNetworkBlock`. -/
theorem parseNetworkBlock_skip {block : List String} {area : String}
    (h : block.any isNetworkLinksLine = false) :
    parseNetworkBlock block area = none := by
  rw [parseNetworkBlock, h]
  rfl

theorem parseRouterLSAsGo_nil :
    ∀ (blocks : List (List String)) (area : String),
      (∀ b ∈ blocks, b.any isRouterLinksLine = false) →
        parseRouterLSAsGo blocks area = [] := by
  intro blocks
  induction blocks with
  | nil => intro area _; rfl
  | cons b bs ih =>
    intro area h
    rw [parseRouterLSAsGo]
    rw [parseRouterBlock_skip (h b (by simp))]
    exact ih _ (fun b2 hb2 => h b2 (by simp [hb2]))

theorem parseNetworkLSAsGo_nil :
    ∀ (blocks : List (List String)) (area : String),
      (∀ b ∈ blocks, b.any isNetworkLinksLine = false) →
        parseNetworkLSAsGo blocks area = [] := by
  intro blocks
  induction blocks with
  | nil => intro area _; rfl
  | cons b bs ih =>
    intro area h
    rw [parseNetworkLSAsGo]
    rw [parseNetworkBlock_skip (h b (by simp))]
    exact ih _ (fun b2 hb2 => h b2 (by simp [hb2]))

/-- The Router-LSA field scan never invents a router id: on lines where
the Link State ID pattern does not match, the id field is untouched. -/
theorem rtrFieldStep_routerId (f : RtrFields) (line : String)
    (h : linkStateIdOf (trimChars line.data) = none) :
    (rtrFieldStep f line).routerId = f.routerId := by
  simp only [rtrFieldStep, h]
  cases lsAgeAt (trimChars line.data) <;>
    cases seqNumberOf (trimChars line.data) <;>
      cases checksumOf (trimChars line.data) <;>
        first
          | rfl
          | (split_ifs <;> rfl)

theorem foldl_rtrFieldStep_routerId :
    ∀ (block : List String) (f : RtrFields),
      (∀ l ∈ block, linkStateIdOf (trimChars l.data) = none) →
        (block.foldl rtrFieldStep f).routerId = f.routerId := by
  intro block
  induction block with
  | nil => intro f _; rfl
  | cons line rest ih =>
    intro f h
    rw [List.foldl_cons,
      ih (rtrFieldStep f line) (fun l hl => h l (by simp [hl])),
      rtrFieldStep_routerId f line (h line (by simp))]

/-- The Network-LSA field scan never invents a link-state id. -/
theorem netFieldStep_linkStateId (f : NetFields) (line : String)
    (h : linkStateIdOf (trimChars line.data) = none) :
    (netFieldStep f line).linkStateId = f.linkStateId := by
  simp only [netFieldStep, h]
  cases lsAgeAt (trimChars line.data) <;>
    cases advRouterOf (trimChars line.data) <;>
      cases seqNumberOf (trimChars line.data) <;>
        cases checksumOf (trimChars line.data) <;>
          cases netMaskOf (trimChars line.data) <;>
            cases attachedRouterOf (trimChars line.data) <;>
              rfl

theorem foldl_netFieldStep_linkStateId :
    ∀ (block : List String) (f : NetFields),
      (∀ l ∈ block, linkStateIdOf (trimChars l.data) = none) →
        (block.foldl netFieldStep f).linkStateId = f.linkStateId := by
  intro block
  induction block with
  | nil => intro f _; rfl
  | cons line rest ih =>
    intro f h
    rw [List.foldl_cons,
      ih (netFieldStep f line) (fun l hl => h l (by simp [hl])),
      netFieldStep_linkStateId f line (h line (by simp))]

/-- C5: the parser never fails - the embedding is a total Lean
function, mirroring the throw-free source; an input none of whose
lines passes the `LS Type: Router Links` or `LS Type: Network Links`
test parses to the empty topology (no routers, networks, links or
areas); and a block whose lines never match the primary
`Link State ID` pattern contributes no entity at all - both the
Router-LSA and the Network-LSA block parsers drop it entirely. -/
theorem parser_empty_and_drop (input : String) (block : List String)
    (area : String) :
    ((∀ l ∈ splitLines input,
        isRouterLinksLine l = false ∧ isNetworkLinksLine l = false) →
      parseOSPFData input = emptyTopology) ∧
    ((∀ l ∈ block, linkStateIdOf (trimChars l.data) = none) →
      parseRouterBlock block area = none ∧
      parseNetworkBlock block area = none) := by
  constructor
  · intro h
    have hR : parseRouterLSAs (splitLines input) = [] := by
      rw [parseRouterLSAs]
      apply parseRouterLSAsGo_nil
      intro b hb
      rw [List.any_eq_false]
      intro l hl
      rcases mem_of_mem_splitBlocksGo isLSAgeBoundary (splitLines input)
        [] b l hb hl with h1 | h1
      · simp [(h l h1).1]
      · simp at h1
    have hN : parseNetworkLSAs (splitLines input) = [] := by
      rw [parseNetworkLSAs]
      apply parseNetworkLSAsGo_nil
      intro b hb
      rw [List.any_eq_false]
      intro l hl
      rcases mem_of_mem_splitBlocksGo isLSAgeBoundary (splitLines input)
        [] b l hb hl with h1 | h1
      · simp [(h l h1).2]
      · simp at h1
    rw [parseOSPFData, parseOSPFLines, hR, hN]
    rfl
  · intro h
    have hid : (block.foldl rtrFieldStep {}).routerId = "" :=
      foldl_rtrFieldStep_routerId block {} h
    have hlsid : (block.foldl netFieldStep {}).linkStateId = "" :=
      foldl_netFieldStep_linkStateId block {} h
    constructor
    · simp only [parseRouterBlock, hid]
      split
      · rfl
      · simp
    · simp only [parseNetworkBlock, hlsid]
      split
      · rfl
      · simp

/-- Witness for C5 at a concrete id-free input and a concrete Router
LSA block lacking its Link State ID line. -/
theorem parser_empty_and_drop_witness :
    ((∀ l ∈ splitLines "hello\nworld",
        isRouterLinksLine l = false ∧ isNetworkLinksLine l = false) ∧
     (∀ l ∈ ["  LS age: 5", "  LS Type: Router Links"],
        linkStateIdOf (trimChars l.data) = none)) ∧
    parseOSPFData "hello\nworld" = emptyTopology ∧
    parseRouterBlock ["  LS age: 5", "  LS Type: Router Links"] "0" =
      none :=
  ⟨⟨by decide, by decide⟩,
    (parser_empty_and_drop "hello\nworld"
      ["  LS age: 5", "  LS Type: Router Links"] "0").1 (by decide),
    ((parser_empty_and_drop "hello\nworld"
      ["  LS age: 5", "  LS Type: Router Links"] "0").2 (by decide)).1⟩

/-! ## C8 - change-id uniqueness and ordering -/

theorem charOfNat_digit_isDigit (k : Nat) (hk : k < 10) :
    (Char.ofNat (48 + k)).isDigit = true := by
  interval_cases k <;> decide

theorem charOfNat_digit_toNat (k : Nat) (hk : k < 10) :
    (Char.ofNat (48 + k)).toNat = 48 + k := by
  interval_cases k <;> decide

theorem natDigitsGo_digits :
    ∀ (fuel n : Nat) (acc : List Char), (∀ c ∈ acc, c.isDigit = true) →
      ∀ c ∈ natDigitsGo fuel n acc, c.isDigit = true := by
  intro fuel
  induction fuel with
  | zero => intro n acc hacc c hc; exact hacc c hc
  | succ fuel ih =>
    intro n acc hacc c hc
    have h10 : n % 10 < 10 := Nat.mod_lt _ (by norm_num)
    have hd := charOfNat_digit_isDigit (n % 10) h10
    simp only [natDigitsGo] at hc
    split at hc
    · rcases List.mem_cons.mp hc with h1 | h1
      · rw [h1]; exact hd
      · exact hacc c h1
    · refine ih (n / 10) (Char.ofNat (48 + n % 10) :: acc) ?_ c hc
      intro d hd2
      rcases List.mem_cons.mp hd2 with h1 | h1
      · rw [h1]; exact hd
      · exact hacc d h1

theorem natDigitsGo_append :
    ∀ (fuel n : Nat) (acc : List Char),
      natDigitsGo fuel n acc = natDigitsGo fuel n [] ++ acc := by
  intro fuel
  induction fuel with
  | zero => intro n acc; rfl
  | succ fuel ih =>
    intro n acc
    simp only [natDigitsGo]
    split
    · rfl
    · rw [ih (n / 10) (Char.ofNat (48 + n % 10) :: acc),
        ih (n / 10) [Char.ofNat (48 + n % 10)]]
      simp

theorem digitsToNat_append_digit (xs : List Char) (d : Char) :
    digitsToNat (xs ++ [d]) = 10 * digitsToNat xs + (d.toNat - 48) := by
  rw [digitsToNat, digitsToNat, List.foldl_append]
  rfl

theorem digitsToNat_natDigitsGo :
    ∀ (fuel n : Nat), n ≤ fuel →
      digitsToNat (natDigitsGo fuel n []) = n := by
  intro fuel
  induction fuel with
  | zero =>
    intro n hn
    interval_cases n
    rfl
  | succ fuel ih =>
    intro n hn
    have h10 : n % 10 < 10 := Nat.mod_lt _ (by norm_num)
    simp only [natDigitsGo]
    split
    case isTrue h0 =>
      have hlt : n < 10 := by omega
      have : digitsToNat [Char.ofNat (48 + n % 10)] = n % 10 := by
        rw [show [Char.ofNat (48 + n % 10)] =
          [] ++ [Char.ofNat (48 + n % 10)] by simp, digitsToNat_append_digit,
          charOfNat_digit_toNat _ h10]
        simp [digitsToNat]
      rw [this]
      exact Nat.mod_eq_of_lt hlt
    case isFalse h0 =>
      rw [natDigitsGo_append, digitsToNat_append_digit,
        ih (n / 10) (by omega),
        charOfNat_digit_toNat _ h10]
      omega

theorem natRepr_inj {m n : Nat} (h : natRepr m = natRepr n) : m = n := by
  have hd : natDigitsGo (m + 1) m [] = natDigitsGo (n + 1) n [] :=
    congrArg String.data h
  have := congrArg digitsToNat hd
  rwa [digitsToNat_natDigitsGo (m + 1) m (by omega),
    digitsToNat_natDigitsGo (n + 1) n (by omega)] at this

theorem natRepr_no_dash (n : Nat) : '-' ∉ (natRepr n).data := by
  intro hmem
  have := natDigitsGo_digits (n + 1) n [] (by simp) '-' hmem
  simp at this

theorem append_dash_inj :
    ∀ {l1 l2 r1 r2 : List Char}, '-' ∉ l1 → '-' ∉ l2 →
      l1 ++ '-' :: r1 = l2 ++ '-' :: r2 → l1 = l2 ∧ r1 = r2 := by
  intro l1
  induction l1 with
  | nil =>
    intro l2 r1 r2 h1 h2 h
    cases l2 with
    | nil =>
      simp only [List.nil_append] at h
      injection h with _ hr
      exact ⟨rfl, hr⟩
    | cons b bs =>
      simp only [List.nil_append, List.cons_append] at h
      injection h with hb _
      exact absurd (hb ▸ List.mem_cons_self b bs) h2
  | cons a as ih =>
    intro l2 r1 r2 h1 h2 h
    cases l2 with
    | nil =>
      simp only [List.cons_append, List.nil_append] at h
      injection h with ha _
      exact absurd (ha.symm ▸ List.mem_cons_self a as) h1
    | cons b bs =>
      simp only [List.cons_append] at h
      injection h with hab hrest
      have hr := ih (fun hm => h1 (List.mem_cons_of_mem _ hm))
        (fun hm => h2 (List.mem_cons_of_mem _ hm)) hrest
      exact ⟨by rw [hab, hr.1], hr.2⟩

theorem mkChangeId_inj_counter {t1 t2 c1 c2 : Nat}
    (h : mkChangeId t1 c1 = mkChangeId t2 c2) : c1 = c2 := by
  have hd : "change-".data ++
        ((natRepr t1).data ++ '-' :: (natRepr c1).data) =
      "change-".data ++
        ((natRepr t2).data ++ '-' :: (natRepr c2).data) := by
    have := congrArg String.data h
    simpa [mkChangeId, List.append_assoc] using this
  have h2 := List.append_cancel_left hd
  have h3 := append_dash_inj (natRepr_no_dash t1) (natRepr_no_dash t2) h2
  exact natRepr_inj (String.ext h3.2)

/-- A run of several `diffTopologies` calls in one process: the counter
threads from call to call (each call reads its own clock value). -/
def runDiffs : List (OSPFTopology × OSPFTopology × Nat) → Nat →
    List TopologyChange × Nat
  | [], c0 => ([], c0)
  | call :: rest, c0 =>
    let r1 := diffTopologies call.1 call.2.1 call.2.2 c0
    let r2 := runDiffs rest r1.2
    (r1.1 ++ r2.1, r2.2)

theorem runDiffs_params :
    ∀ (calls : List (OSPFTopology × OSPFTopology × Nat)) (c0 : Nat),
      ∃ params : List (Nat × Nat),
        (runDiffs calls c0).1.map (fun c => c.id) =
          params.map (fun p => mkChangeId p.1 p.2) ∧
        params.map Prod.snd =
          List.range' c0 ((runDiffs calls c0).2 - c0) ∧
        c0 ≤ (runDiffs calls c0).2 := by
  intro calls
  induction calls with
  | nil =>
    intro c0
    exact ⟨[], by simp [runDiffs], by simp [runDiffs], by simp [runDiffs]⟩
  | cons call rest ih =>
    intro c0
    obtain ⟨A, B, now⟩ := call
    obtain ⟨params2, hids2, hsnd2, hle2⟩ :=
      ih (diffTopologies A B now c0).2
    have hc1 : (diffTopologies A B now c0).2 =
        c0 + (protoDiff A B now).length := attachIds_snd _ _ _
    have hids1 : (diffTopologies A B now c0).1.map (fun c => c.id) =
        (List.range' c0 (protoDiff A B now).length).map (mkChangeId now) :=
      attachIds_map_id _ _ _
    have hrun1 : (runDiffs ((A, B, now) :: rest) c0).1 =
        (diffTopologies A B now c0).1 ++
          (runDiffs rest (diffTopologies A B now c0).2).1 := rfl
    have hrun2 : (runDiffs ((A, B, now) :: rest) c0).2 =
        (runDiffs rest (diffTopologies A B now c0).2).2 := rfl
    refine ⟨(List.range' c0 (protoDiff A B now).length).map
      (fun c => (now, c)) ++ params2, ?_, ?_, ?_⟩
    · rw [hrun1, List.map_append, hids1, hids2, List.map_append,
        List.map_map]
      congr 1
    · rw [hrun2, hc1]
      rw [hc1] at hsnd2 hle2
      rw [List.map_append, List.map_map, hsnd2]
      have h1 : (List.range' c0 (protoDiff A B now).length).map
          (Prod.snd ∘ fun c => ((now : Nat), c)) =
          List.range' c0 (protoDiff A B now).length := by
        simp
      rw [h1]
      have happ := List.range'_append c0 (protoDiff A B now).length
        ((runDiffs rest (c0 + (protoDiff A B now).length)).2 -
          (c0 + (protoDiff A B now).length)) 1
      simp only [Nat.one_mul] at happ
      rw [happ]
      congr 1
      omega
    · rw [hrun2, hc1]
      rw [hc1] at hle2
      omega

theorem nodup_map_of_nodup_map {α β γ : Type} (f : α → β) (g : α → γ)
    (l : List α) (hg : (l.map g).Nodup)
    (h : ∀ p ∈ l, ∀ q ∈ l, f p = f q → g p = g q) :
    (l.map f).Nodup := by
  induction l with
  | nil => simp
  | cons a as ih =>
    simp only [List.map_cons, List.nodup_cons] at hg ⊢
    constructor
    · intro hmem
      obtain ⟨b, hb, hfb⟩ := List.mem_map.mp hmem
      exact hg.1 (List.mem_map.mpr ⟨b, hb,
        (h b (List.mem_cons_of_mem _ hb) a (by simp) hfb).symm ▸ rfl⟩)
    · exact ih hg.2 (fun p hp q hq => h p (List.mem_cons_of_mem _ hp) q
        (List.mem_cons_of_mem _ hq))

/-- C8 (amended): across any sequence of `diffTopologies` calls in one
process, the generated change ids are pairwise distinct, and the ids
are generated with strictly increasing counter components (the ids are,
in generation order, `mkChangeId now ctr` for the consecutive counters
`c0, c0+1, ...`) - which is the order the claim's "monotonically
ordered" can keep; the raw lexicographic string order does not hold
(see the counterexample). -/
theorem changeId_unique_and_counter_ordered
    (calls : List (OSPFTopology × OSPFTopology × Nat)) (c0 : Nat) :
    ((runDiffs calls c0).1.map (fun c => c.id)).Nodup ∧
    ∃ params : List (Nat × Nat),
      (runDiffs calls c0).1.map (fun c => c.id) =
        params.map (fun p => mkChangeId p.1 p.2) ∧
      params.map Prod.snd =
        List.range' c0 ((runDiffs calls c0).2 - c0) := by
  obtain ⟨params, hids, hsnd, hle⟩ := runDiffs_params calls c0
  refine ⟨?_, params, hids, hsnd⟩
  rw [hids]
  refine nodup_map_of_nodup_map _ Prod.snd params ?_ ?_
  · rw [hsnd]
    exact List.nodup_range' _ _
  · intro p _ q _ hpq
    exact mkChangeId_inj_counter hpq

/-- C8 (counterexample to the claim as stated): one diff call detecting
a new router and a new link at clock 0 with counter 9 yields the ids
change-0-9 then change-0-10, in that order - and the later id is
strictly *smaller* than the earlier one in code-unit (lexicographic)
string order, so ids are not monotonically ordered as strings. -/
theorem changeId_not_string_ordered :
    ((diffTopologies sampleTopoB sampleTopoA 0 9).1.map
      (fun c => c.id)) = ["change-0-9", "change-0-10"] ∧
    strLe "change-0-10" "change-0-9" = true ∧
    "change-0-10" ≠ "change-0-9" := by
  decide

/-- Witness for C8's amended theorem at a concrete two-call run. -/
theorem changeId_unique_witness :
    ((runDiffs [(sampleTopoA, sampleTopoB, 0),
        (sampleTopoB, sampleTopoA, 7)] 3).1.map
      (fun c => c.id)).Nodup :=
  (changeId_unique_and_counter_ordered
    [(sampleTopoA, sampleTopoB, 0), (sampleTopoB, sampleTopoA, 7)] 3).1

/-! ## C6 - role upgrades are monotone within one parse -/

/-- Role-monotone extension between two router maps: every router id
present in the first keeps an entry in the second whose role rank is at
least as high. -/
def RoleMonoM (m m2 : List (String × OSPFRouter)) : Prop :=
  ∀ rid r, jsMapGet m rid = some r →
    ∃ r2, jsMapGet m2 rid = some r2 ∧ r.role.rank ≤ r2.role.rank

theorem roleMonoM_refl (m : List (String × OSPFRouter)) : RoleMonoM m m :=
  fun _ r hr => ⟨r, hr, Nat.le_refl _⟩

theorem roleMonoM_trans {a b c : List (String × OSPFRouter)}
    (h1 : RoleMonoM a b) (h2 : RoleMonoM b c) : RoleMonoM a c := by
  intro rid r hr
  obtain ⟨r2, hr2, hle2⟩ := h1 rid r hr
  obtain ⟨r3, hr3, hle3⟩ := h2 rid r2 hr2
  exact ⟨r3, hr3, Nat.le_trans hle2 hle3⟩

/-- The merge at source lines 48-49 never lowers the role. -/
theorem rank_le_upgradeRole (r : OSPFRouter) (a b : Bool) :
    r.role.rank ≤ (upgradeRole r a b).role.rank := by
  cases hrole : r.role <;> cases a <;> cases b <;>
    simp [upgradeRole, hrole, RouterRole.rank]

/-- `jsMapSet` is role-monotone when the written value does not lower
the role of the overwritten entry (vacuously so for a fresh key). -/
theorem roleMonoM_set (m : List (String × OSPFRouter)) (k : String)
    (v : OSPFRouter)
    (h : ∀ r, jsMapGet m k = some r → r.role.rank ≤ v.role.rank) :
    RoleMonoM m (jsMapSet m k v) := by
  intro rid r hget
  by_cases hk : k = rid
  · subst hk
    exact ⟨v, by rw [jsMapGet_set]; simp, h r hget⟩
  · exact ⟨r, by rw [jsMapGet_set, if_neg hk]; exact hget, Nat.le_refl _⟩

theorem routerLinkStep_roleMono (rid area : String) (st : BuildState)
    (link : RawLink) :
    RoleMonoM st.routerMap (routerLinkStep rid area st link).routerMap := by
  cases hget : jsMapGet st.routerMap rid with
  | none => simp only [routerLinkStep, hget]; exact roleMonoM_refl _
  | some router =>
    simp only [routerLinkStep, hget]
    have hset : ∀ v : OSPFRouter, v.role = router.role →
        RoleMonoM st.routerMap (jsMapSet st.routerMap rid v) := by
      intro v hv
      apply roleMonoM_set
      intro r hr
      rw [hget] at hr
      injection hr with hr
      rw [← hr, hv]
    split
    · split <;> (apply hset; split <;> rfl)
    · split
      · exact roleMonoM_refl _
      · apply hset
        rfl
    · split
      · exact roleMonoM_refl _
      · apply hset
        rfl

theorem routerLSAStep_roleMono (st : BuildState) (lsa : RawRouterLSA) :
    RoleMonoM st.routerMap (routerLSAStep st lsa).routerMap := by
  have hfold : ∀ (links : List RawLink) (st2 : BuildState),
      RoleMonoM st2.routerMap
        ((links.foldl (routerLinkStep lsa.routerId lsa.area)
          st2).routerMap) := by
    intro links
    induction links with
    | nil => intro st2; exact roleMonoM_refl _
    | cons l rest ih =>
      intro st2
      exact roleMonoM_trans
        (routerLinkStep_roleMono lsa.routerId lsa.area st2 l) (ih _)
  simp only [routerLSAStep]
  refine roleMonoM_trans ?_ (hfold lsa.links _)
  cases hget : jsMapGet st.routerMap lsa.routerId with
  | none =>
    simp only [hget]
    apply roleMonoM_set
    intro r hr
    rw [hget] at hr
    exact absurd hr (by simp)
  | some existing =>
    simp only [hget]
    apply roleMonoM_set
    intro r hr
    rw [hget] at hr
    injection hr with hr
    rw [← hr]
    exact rank_le_upgradeRole existing lsa.isABR lsa.isASBR

theorem attachedRouterTag_roleMono (adv : String) (st2 : BuildState)
    (ar : String) :
    RoleMonoM st2.routerMap (attachedRouterTag adv st2 ar).routerMap := by
  simp only [attachedRouterTag]
  split
  · cases hget : jsMapGet st2.routerMap ar with
    | none => simp only [hget]; exact roleMonoM_refl _
    | some r =>
      simp only [hget]
      split
      · exact roleMonoM_refl _
      · apply roleMonoM_set
        intro r0 hr0
        rw [hget] at hr0
        injection hr0 with hr0
        rw [← hr0]
  · exact roleMonoM_refl _

theorem attachedRouterStep_roleMono (nid adv area : String)
    (st : BuildState) (ar : String) :
    RoleMonoM st.routerMap
      (attachedRouterStep nid adv area st ar).routerMap := by
  simp only [attachedRouterStep]
  refine roleMonoM_trans (b := (if jsMapHas st.routerMap ar then
      ({ st with links := st.links ++
        [{ id := "transit-" ++ nid ++ "-" ++ ar, source := nid,
           target := ar, cost := 0, linkType := .transit,
           interfaceInfo := none, area := area }] } : BuildState)
    else
      { st with
        links := st.links ++
          [{ id := "transit-" ++ nid ++ "-" ++ ar, source := nid,
             target := ar, cost := 0, linkType := .transit,
             interfaceInfo := none, area := area }],
        routerMap := jsMapSet st.routerMap ar
          ({ id := ar, routerId := ar, role := .internal, area := area,
             lsaTypes := [], neighbors := [], networks := [nid],
             sequenceNumber := none, age := none,
             checksum := none }) }).routerMap) ?_ ?_
  · split
    · exact roleMonoM_refl _
    · apply roleMonoM_set
      intro r hr
      rename_i hhas
      rw [jsMapHas, hr] at hhas
      simp at hhas
  · exact attachedRouterTag_roleMono adv _ ar

theorem networkLSAStep_roleMono (st : BuildState) (nlsa : RawNetworkLSA) :
    RoleMonoM st.routerMap (networkLSAStep st nlsa).routerMap := by
  have hfold : ∀ (ars : List String) (m : List (String × OSPFRouter))
      (st2 : BuildState), RoleMonoM m st2.routerMap →
      RoleMonoM m
        ((ars.foldl (attachedRouterStep nlsa.linkStateId
          nlsa.advertisingRouter nlsa.area) st2).routerMap) := by
    intro ars
    induction ars with
    | nil => intro m st2 hm; exact hm
    | cons ar rest ih =>
      intro m st2 hm
      exact ih m _ (roleMonoM_trans hm
        (attachedRouterStep_roleMono nlsa.linkStateId
          nlsa.advertisingRouter nlsa.area st2 ar))
  simp only [networkLSAStep]
  exact hfold nlsa.attachedRouters st.routerMap _ (roleMonoM_refl _)

theorem foldl_routerLSAStep_roleMono (lsas : List RawRouterLSA) :
    ∀ st : BuildState,
      RoleMonoM st.routerMap ((lsas.foldl routerLSAStep st).routerMap) := by
  induction lsas with
  | nil => intro st; exact roleMonoM_refl _
  | cons lsa rest ih =>
    intro st
    exact roleMonoM_trans (routerLSAStep_roleMono st lsa) (ih _)

theorem foldl_networkLSAStep_roleMono (nlsas : List RawNetworkLSA) :
    ∀ st : BuildState,
      RoleMonoM st.routerMap
        ((nlsas.foldl networkLSAStep st).routerMap) := by
  induction nlsas with
  | nil => intro st; exact roleMonoM_refl _
  | cons nlsa rest ih =>
    intro st
    exact roleMonoM_trans (networkLSAStep_roleMono st nlsa) (ih _)

/-- C6: within one `parseOSPFData` run a router's role is only ever
upgraded, never downgraded.  The run processes the Router LSAs and then
the Network LSAs by the folds shown (the last conjunct ties the folds
to `parseOSPFLines`); at whatever point a router id is observed with
some role - after any prefix of the Router-LSA fold, or after the
Router-LSA fold plus any prefix of the Network-LSA fold - the final
state holds the same id with a role of greater or equal rank on the
lattice internal < abr < asbr. -/
theorem parse_role_monotone (rls1 rls2 : List RawRouterLSA)
    (nls1 nls2 : List RawNetworkLSA) (lines : List String)
    (rid : String) (r : OSPFRouter) :
    ((jsMapGet ((rls1.foldl routerLSAStep initBuildState).routerMap) rid =
        some r →
      ∃ r2, jsMapGet (((nls1 ++ nls2).foldl networkLSAStep
          ((rls1 ++ rls2).foldl routerLSAStep
            initBuildState)).routerMap) rid = some r2 ∧
        r.role.rank ≤ r2.role.rank) ∧
     (jsMapGet ((nls1.foldl networkLSAStep
          (rls1.foldl routerLSAStep initBuildState)).routerMap) rid =
        some r →
      ∃ r2, jsMapGet (((nls1 ++ nls2).foldl networkLSAStep
          (rls1.foldl routerLSAStep initBuildState)).routerMap) rid =
          some r2 ∧
        r.role.rank ≤ r2.role.rank)) ∧
    (parseOSPFLines lines).routers =
      ((parseNetworkLSAs lines).foldl networkLSAStep
        ((parseRouterLSAs lines).foldl routerLSAStep
          initBuildState)).routerMap.map (fun p => p.2) := by
  refine ⟨⟨?_, ?_⟩, rfl⟩
  · intro hget
    rw [List.foldl_append routerLSAStep initBuildState rls1 rls2]
    exact roleMonoM_trans (foldl_routerLSAStep_roleMono rls2 _)
      (foldl_networkLSAStep_roleMono (nls1 ++ nls2) _) rid r hget
  · intro hget
    rw [List.foldl_append]
    exact foldl_networkLSAStep_roleMono nls2 _ rid r hget

/-- A plain Router LSA for 9.9.9.9 with no border flags. -/
def plainLSA9 : RawRouterLSA :=
  { routerId := "9.9.9.9", area := "0", age := 1, seqNumber := "",
    checksum := "", isABR := false, isASBR := false, links := [] }

/-- The same router advertised again with the AS-boundary flag set. -/
def asbrLSA9 : RawRouterLSA :=
  { routerId := "9.9.9.9", area := "0", age := 2, seqNumber := "",
    checksum := "", isABR := false, isASBR := true, links := [] }

/-- The internal-role record the first LSA produces for 9.9.9.9. -/
def internalRouter9 : OSPFRouter :=
  { id := "9.9.9.9", routerId := "9.9.9.9", role := .internal,
    area := "0", lsaTypes := ["Router LSA (Type 1)"], neighbors := [],
    networks := [], sequenceNumber := some "", age := some 1,
    checksum := some "" }

/-- Witness for C6 at a concrete split: router 9.9.9.9 is first seen as
`internal` from a plain Router LSA, then a later LSA carries the
AS-boundary flag; the final state keeps the id with a role of greater
or equal rank. -/
theorem parse_role_monotone_witness :
    (jsMapGet (([plainLSA9].foldl routerLSAStep
        initBuildState).routerMap) "9.9.9.9" = some internalRouter9) ∧
    ∃ r2, jsMapGet (((([] : List RawNetworkLSA) ++ []).foldl
        networkLSAStep (([plainLSA9] ++ [asbrLSA9]).foldl routerLSAStep
          initBuildState)).routerMap) "9.9.9.9" = some r2 ∧
      internalRouter9.role.rank ≤ r2.role.rank :=
  ⟨by decide,
    (parse_role_monotone [plainLSA9] [asbrLSA9] [] [] []
      "9.9.9.9" internalRouter9).1.1 (by decide)⟩

/-! ## C7 - removed entities are re-inserted as tombstones -/

/-- C7: an entity referenced by a removed-type change is not dropped.
If a change of type router-removed carries a (non-empty) router id r,
every old-graph node with id r is re-inserted into
`applyNodeStatuses`' result with status removed and the current
timestamp; if a change of type link-removed carries a (non-empty) link
id and its description names endpoints s and t, every old-graph edge on
the same sorted endpoint pair is re-inserted into
`applyEdgeStatuses`' result with status removed and the current
timestamp. -/
theorem removed_reinserted (nodes : List GraphNode)
    (edges : List GraphEdge) (changes : List TopologyChange)
    (oldNodes : List GraphNode) (oldEdges : List GraphEdge) (now : Nat) :
    (∀ c ∈ changes, c.type = .routerRemoved → ∀ r, c.routerId = some r →
      r ≠ "" → ∀ n ∈ oldNodes, n.id = r →
        ({ n with
            status := some .removed
            statusTimestamp := some now } : GraphNode) ∈
          applyNodeStatuses nodes changes oldNodes now) ∧
    (∀ c ∈ changes, c.type = .linkRemoved → ∀ i, c.linkId = some i →
      i ≠ "" → ∀ s t, matchLinkDesc c.description = some (s, t) →
      ∀ e ∈ oldEdges, linkKey e.source e.target = linkKey s t →
        ({ e with
            status := some .removed
            statusTimestamp := some now } : GraphEdge) ∈
          applyEdgeStatuses edges changes oldEdges now) := by
  constructor
  · intro c hc hty r hcr hrne n hn hni
    simp only [applyNodeStatuses]
    apply List.mem_append_right
    apply List.mem_filterMap.mpr
    refine ⟨n, hn, ?_⟩
    have hmem : n.id ∈ routerIdSetOf changes .routerRemoved := by
      rw [hni]
      exact (mem_routerIdSetOf changes .routerRemoved r).mpr
        ⟨c, hc, hty, hcr, hrne⟩
    rw [if_pos (List.elem_iff.mpr hmem)]
  · intro c hc hty i hcl hine s t hmatch e he hkey
    simp only [applyEdgeStatuses]
    apply List.mem_append_right
    apply List.mem_filterMap.mpr
    refine ⟨e, he, ?_⟩
    have hmem : linkKey e.source e.target ∈
        linkKeysOf changes .linkRemoved := by
      rw [hkey]
      exact (mem_linkKeysOf changes .linkRemoved (linkKey s t)).mpr
        ⟨c, hc, hty, i, hcl, hine, (s, t), hmatch, rfl⟩
    rw [if_pos (List.elem_iff.mpr hmem)]

/-- The router-removed change `diff(sampleTopoA, sampleTopoB)` emits
for 2.2.2.2 at clock 0, counter 0. -/
def change222 : TopologyChange :=
  { id := mkChangeId 0 0, type := .routerRemoved,
    routerId := some "2.2.2.2",
    description := "Router 2.2.2.2 went offline", timestamp := 0 }

/-- The graph node `buildGraph sampleTopoA` builds for router
2.2.2.2. -/
def node222 : GraphNode :=
  { id := "2.2.2.2", type := .router, label := "2.2.2.2",
    role := some .internal, area := "0", x := 0, y := 0,
    data := .inl (sampleRouter "2.2.2.2" "0") }

/-- Witness for C7: in the removal scenario, annotating snapshot B's
graph with old graph A re-inserts a 2.2.2.2 node tagged removed. -/
theorem removed_reinserted_witness :
    (change222 ∈ (diffTopologies sampleTopoA sampleTopoB 0 0).1 ∧
     change222.type = .routerRemoved ∧
     change222.routerId = some "2.2.2.2" ∧
     node222 ∈ (buildGraph sampleTopoA).1 ∧ node222.id = "2.2.2.2") ∧
    ({ node222 with
        status := some .removed
        statusTimestamp := some 5 } : GraphNode) ∈
      applyNodeStatuses (buildGraph sampleTopoB).1
        (diffTopologies sampleTopoA sampleTopoB 0 0).1
        (buildGraph sampleTopoA).1 5 :=
  ⟨⟨by decide, by decide, by decide,
      List.mem_cons_of_mem _ (List.mem_cons_self _ _), rfl⟩,
    (removed_reinserted (buildGraph sampleTopoB).1
      (buildGraph sampleTopoB).2
      (diffTopologies sampleTopoA sampleTopoB 0 0).1
      (buildGraph sampleTopoA).1 (buildGraph sampleTopoA).2 5).1
      change222 (by decide) (by decide) "2.2.2.2" (by decide)
      (by decide) node222
      (List.mem_cons_of_mem _ (List.mem_cons_self _ _)) rfl⟩

/-! ## C10 - networks are invisible to the differ and annotator -/

theorem snd_mem_links_of_mem_linkMapOf {T : OSPFTopology}
    {kv : String × OSPFLink} (h : kv ∈ linkMapOf T) : kv.2 ∈ T.links := by
  rw [linkMapOf] at h
  obtain ⟨l, hl, he⟩ := List.mem_map.mp (mem_mkJsMap h)
  rw [← he]
  exact hl

theorem fields_of_mem_routerAddedChanges {A B : OSPFTopology} {now : Nat}
    {c : TopologyChange} (hc : c ∈ routerAddedChanges A B now) :
    (∃ rb ∈ B.routers, c.routerId = some rb.routerId) ∧ c.linkId = none := by
  obtain ⟨rb, hrb, hf⟩ := List.mem_filterMap.mp hc
  split at hf
  · exact absurd hf (by simp)
  · injection hf with hf
    exact ⟨⟨rb, hrb, by rw [← hf]; rfl⟩, by rw [← hf]; rfl⟩

theorem fields_of_mem_routerRemovedChanges {A B : OSPFTopology} {now : Nat}
    {c : TopologyChange} (hc : c ∈ routerRemovedChanges A B now) :
    (∃ ra ∈ A.routers, c.routerId = some ra.routerId) ∧ c.linkId = none := by
  obtain ⟨ra, hra, hf⟩ := List.mem_filterMap.mp hc
  split at hf
  · exact absurd hf (by simp)
  · injection hf with hf
    exact ⟨⟨ra, hra, by rw [← hf]; rfl⟩, by rw [← hf]; rfl⟩

theorem fields_of_mem_linkAddedChanges {A B : OSPFTopology} {now : Nat}
    {c : TopologyChange} (hc : c ∈ linkAddedChanges A B now) :
    (∃ l ∈ B.links, c.linkId = some l.id) ∧ c.routerId = none := by
  obtain ⟨kv, hkv, hf⟩ := List.mem_filterMap.mp hc
  split at hf
  · exact absurd hf (by simp)
  · injection hf with hf
    exact ⟨⟨kv.2, snd_mem_links_of_mem_linkMapOf hkv, by rw [← hf]; rfl⟩,
      by rw [← hf]; rfl⟩

theorem fields_of_mem_linkRemovedChanges {A B : OSPFTopology} {now : Nat}
    {c : TopologyChange} (hc : c ∈ linkRemovedChanges A B now) :
    (∃ l ∈ A.links, c.linkId = some l.id) ∧ c.routerId = none := by
  obtain ⟨kv, hkv, hf⟩ := List.mem_filterMap.mp hc
  split at hf
  · exact absurd hf (by simp)
  · injection hf with hf
    exact ⟨⟨kv.2, snd_mem_links_of_mem_linkMapOf hkv, by rw [← hf]; rfl⟩,
      by rw [← hf]; rfl⟩

theorem fields_of_mem_metricChangedChanges {A B : OSPFTopology} {now : Nat}
    {c : TopologyChange} (hc : c ∈ metricChangedChanges A B now) :
    (∃ l ∈ B.links, c.linkId = some l.id) ∧ c.routerId = none := by
  obtain ⟨kv, hkv, hf⟩ := List.mem_filterMap.mp hc
  cases hg : jsMapGet (linkMapOf A) kv.1 with
  | none => rw [hg] at hf; exact absurd hf (by simp)
  | some oldLink =>
    rw [hg] at hf
    simp only at hf
    split at hf
    · injection hf with hf
      exact ⟨⟨kv.2, snd_mem_links_of_mem_linkMapOf hkv, by rw [← hf]; rfl⟩,
        by rw [← hf]; rfl⟩
    · exact absurd hf (by simp)

theorem fields_of_mem_areaChangedChanges {A B : OSPFTopology} {now : Nat}
    {c : TopologyChange} (hc : c ∈ areaChangedChanges A B now) :
    (∃ rb ∈ B.routers, c.routerId = some rb.routerId) ∧ c.linkId = none := by
  obtain ⟨rb, hrb, hf⟩ := List.mem_filterMap.mp hc
  cases hg : jsMapGet (routerMapOf A) rb.routerId with
  | none => rw [hg] at hf; exact absurd hf (by simp)
  | some oldRouter =>
    rw [hg] at hf
    simp only at hf
    split at hf
    · injection hf with hf
      exact ⟨⟨rb, hrb, by rw [← hf]; rfl⟩, by rw [← hf]; rfl⟩
    · exact absurd hf (by simp)

/-- C10: networks are invisible to the differ and annotator except
through their transit links.  (1) `diffTopologies` ignores the
`networks` field entirely; (2) every change it emits references only
router ids of the two snapshots (via `routerId`) and link ids of the
two snapshots (via `linkId`) - never a network entity itself; (3)
consequently, for any change list whose referenced router ids avoid the
ids of the network-type nodes, `applyNodeStatuses` assigns every
network-type node the status stable, and no element of its result with
status removed is a network-type node. -/
theorem networks_invisible (A B : OSPFTopology) (N1 N2 : List OSPFNetwork)
    (now c0 nowA : Nat) (nodes oldNodes : List GraphNode)
    (changes : List TopologyChange)
    (hN : ∀ n ∈ nodes, n.type = .network → ∀ c ∈ changes,
      ∀ r, c.routerId = some r → n.id ≠ r)
    (hO : ∀ n ∈ oldNodes, n.type = .network → ∀ c ∈ changes,
      ∀ r, c.routerId = some r → n.id ≠ r) :
    (diffTopologies { A with networks := N1 } { B with networks := N2 }
        now c0 = diffTopologies A B now c0) ∧
    (∀ c ∈ (diffTopologies A B now c0).1,
      (∀ r, c.routerId = some r →
        r ∈ routerIdsOf A ∨ r ∈ routerIdsOf B) ∧
      (∀ i, c.linkId = some i →
        (∃ l ∈ A.links, l.id = i) ∨ ∃ l ∈ B.links, l.id = i)) ∧
    (∀ n ∈ nodes, n.type = .network →
      ({ n with status := some .stable } : GraphNode) ∈
        applyNodeStatuses nodes changes oldNodes nowA) ∧
    (∀ n ∈ applyNodeStatuses nodes changes oldNodes nowA,
      n.status = some .removed → n.type ≠ .network) := by
  refine ⟨rfl, ?_, ?_, ?_⟩
  · rw [diffTopologies]
    refine (forall_mem_attachIds_iff (protoDiff A B now) now c0
      (fun _ rid lid _ _ _ _ =>
        (∀ r, rid = some r →
          r ∈ routerIdsOf A ∨ r ∈ routerIdsOf B) ∧
        (∀ i, lid = some i →
          (∃ l ∈ A.links, l.id = i) ∨ ∃ l ∈ B.links, l.id = i))).mpr ?_
    intro c hc
    rcases mem_protoDiff_cases hc with h | h | h | h | h | h
    · obtain ⟨⟨rb, hrb, hrid⟩, hlid⟩ := fields_of_mem_routerAddedChanges h
      refine ⟨fun r hr => ?_, fun i hi => ?_⟩
      · right
        rw [hrid] at hr
        injection hr with hr
        rw [← hr, routerIdsOf]
        exact List.mem_map.mpr ⟨rb, hrb, rfl⟩
      · rw [hlid] at hi
        exact absurd hi (by simp)
    · obtain ⟨⟨ra, hra, hrid⟩, hlid⟩ := fields_of_mem_routerRemovedChanges h
      refine ⟨fun r hr => ?_, fun i hi => ?_⟩
      · left
        rw [hrid] at hr
        injection hr with hr
        rw [← hr, routerIdsOf]
        exact List.mem_map.mpr ⟨ra, hra, rfl⟩
      · rw [hlid] at hi
        exact absurd hi (by simp)
    · obtain ⟨⟨l, hl, hlid⟩, hrid⟩ := fields_of_mem_linkAddedChanges h
      refine ⟨fun r hr => ?_, fun i hi => ?_⟩
      · rw [hrid] at hr
        exact absurd hr (by simp)
      · right
        rw [hlid] at hi
        injection hi with hi
        exact ⟨l, hl, hi⟩
    · obtain ⟨⟨l, hl, hlid⟩, hrid⟩ := fields_of_mem_linkRemovedChanges h
      refine ⟨fun r hr => ?_, fun i hi => ?_⟩
      · rw [hrid] at hr
        exact absurd hr (by simp)
      · left
        rw [hlid] at hi
        injection hi with hi
        exact ⟨l, hl, hi⟩
    · obtain ⟨⟨l, hl, hlid⟩, hrid⟩ := fields_of_mem_metricChangedChanges h
      refine ⟨fun r hr => ?_, fun i hi => ?_⟩
      · rw [hrid] at hr
        exact absurd hr (by simp)
      · right
        rw [hlid] at hi
        injection hi with hi
        exact ⟨l, hl, hi⟩
    · obtain ⟨⟨rb, hrb, hrid⟩, hlid⟩ := fields_of_mem_areaChangedChanges h
      refine ⟨fun r hr => ?_, fun i hi => ?_⟩
      · right
        rw [hrid] at hr
        injection hr with hr
        rw [← hr, routerIdsOf]
        exact List.mem_map.mpr ⟨rb, hrb, rfl⟩
      · rw [hlid] at hi
        exact absurd hi (by simp)
  · intro n hn hty
    simp only [applyNodeStatuses]
    apply List.mem_append_left
    apply List.mem_map.mpr
    refine ⟨n, hn, ?_⟩
    have h1 : n.id ∉ routerIdSetOf changes .routerAdded := by
      intro hcon
      obtain ⟨c, hc, hcty, hr, hne⟩ :=
        (mem_routerIdSetOf changes .routerAdded n.id).mp hcon
      exact hN n hn hty c hc n.id hr rfl
    have h2 : n.id ∉ routerIdSetOf changes .areaChanged := by
      intro hcon
      obtain ⟨c, hc, hcty, hr, hne⟩ :=
        (mem_routerIdSetOf changes .areaChanged n.id).mp hcon
      exact hN n hn hty c hc n.id hr rfl
    simp [h1, h2]
  · intro n hn hst hty
    simp only [applyNodeStatuses] at hn
    rcases List.mem_append.mp hn with h | h
    · obtain ⟨m, hm, hf⟩ := List.mem_map.mp h
      have hstatus : n.status = some .new ∨ n.status = some .changed ∨
          n.status = some .stable := by
        rw [← hf]
        by_cases h1 : m.id ∈ routerIdSetOf changes .routerAdded
        · simp [h1]
        · by_cases h2 : m.id ∈ routerIdSetOf changes .areaChanged
          · simp [h1, h2]
          · simp [h1, h2]
      rw [hst] at hstatus
      simp at hstatus
    · obtain ⟨m, hm, hf⟩ := List.mem_filterMap.mp h
      split at hf
      case isTrue hcon =>
        injection hf with hf
        obtain ⟨c, hc, hcty, hr, hne⟩ :=
          (mem_routerIdSetOf changes .routerRemoved m.id).mp
            (List.elem_iff.mp hcon)
        have hmty : m.type = .network := by
          rw [← hf] at hty
          exact hty
        exact hO m hm hmty c hc m.id hr rfl
      case isFalse => exact absurd hf (by simp)

/-- A network observed on 10.9.9.0/24 with one attached router. -/
def sampleNet : OSPFNetwork :=
  { id := "10.9.9.0", networkAddress := "10.9.9.0",
    mask := "255.255.255.0", attachedRouters := ["1.1.1.1"],
    designatedRouter := "10.9.9.1", area := "0" }

/-- Router 1.1.1.1 plus the network `sampleNet`. -/
def netTopo : OSPFTopology :=
  { routers := [sampleRouter "1.1.1.1" "0"], networks := [sampleNet],
    links := [], areas := ["0"] }

/-- The graph node `buildGraph netTopo` builds for `sampleNet`. -/
def netNode : GraphNode :=
  { id := "10.9.9.0", type := .network, label := "10.9.9.0",
    area := "0", x := 0, y := 0, data := .inr sampleNet }

/-- Witness for C10: annotating `netTopo`'s graph with the changes of
the 2.2.2.2 removal scenario leaves its network node stable. -/
theorem networks_invisible_witness :
    ((∀ n ∈ (buildGraph netTopo).1, n.type = .network →
        ∀ c ∈ (diffTopologies sampleTopoA sampleTopoB 0 0).1,
          ∀ r, c.routerId = some r → n.id ≠ r) ∧
     (∀ n ∈ (buildGraph sampleTopoA).1, n.type = .network →
        ∀ c ∈ (diffTopologies sampleTopoA sampleTopoB 0 0).1,
          ∀ r, c.routerId = some r → n.id ≠ r) ∧
     netNode ∈ (buildGraph netTopo).1 ∧ netNode.type = .network) ∧
    ({ netNode with status := some .stable } : GraphNode) ∈
      applyNodeStatuses (buildGraph netTopo).1
        (diffTopologies sampleTopoA sampleTopoB 0 0).1
        (buildGraph sampleTopoA).1 5 :=
  ⟨⟨by decide, by decide,
      List.mem_cons_of_mem _ (List.mem_cons_self _ _), rfl⟩,
    (networks_invisible sampleTopoA sampleTopoB [sampleNet] [] 0 0 5
      (buildGraph netTopo).1 (buildGraph sampleTopoA).1
      (diffTopologies sampleTopoA sampleTopoB 0 0).1
      (by decide) (by decide)).2.2.1 netNode
      (List.mem_cons_of_mem _ (List.mem_cons_self _ _)) rfl⟩

end NetSec